import Mathlib

/-!
Verification of the mantle-xyz/op-alloy derivation codec layer.

The definitions below are a shallow embedding of the Rust sources:
  crates/consensus/src/transaction/deposit.rs   (TxDeposit RLP codec)
  crates/consensus/src/receipt/mantle.rs        (MantleDepositReceipt codec)
  crates/protocol/src/deposits.rs               (source hashes, deposit-log decoder)
  crates/protocol/src/block_info.rs             (L1 block info calldata codec)
  crates/protocol/src/batch/core.rs             (Batch envelope decode)
  crates/genesis/src/rollup.rs                  (RollupConfig::is_regolith_active)
  crates/genesis/src/system.rs                  (SystemConfig update replay)

Bytes are modelled as `Fin 256`; byte buffers as `List Byte`; Rust machine
integers as `Nat` with explicit bounds where overflow or width matters.
Fallible Rust functions return `Except`.
-/

namespace OpAlloy

/-- A byte, as stored in Rust byte slices. -/
abbrev Byte := Fin 256

/-- Build a byte from a natural number, wrapping mod 256 (as Rust `as u8`). -/
def mkByte (n : Nat) : Byte := ⟨n % 256, Nat.mod_lt _ (by norm_num)⟩

/-- Big-endian byte representation of `n`, exactly `w` bytes wide
(the value is taken mod `256 ^ w`, as the Rust fixed-width `to_be_bytes`). -/
def beBytes : Nat → Nat → List Byte
  | 0, _ => []
  | w + 1, n => beBytes w (n / 256) ++ [mkByte n]

/-- Read a big-endian byte string as a natural number. -/
def fromBe (l : List Byte) : Nat :=
  l.foldl (fun acc b => acc * 256 + b.val) 0

/-- Little-endian byte representation of `n`, exactly `w` bytes wide. -/
def leBytes : Nat → Nat → List Byte
  | 0, _ => []
  | w + 1, n => mkByte n :: leBytes w (n / 256)

/-- Read a little-endian byte string as a natural number. -/
def fromLe (l : List Byte) : Nat :=
  l.foldr (fun b acc => acc * 256 + b.val) 0

@[simp] theorem beBytes_zero_w (n : Nat) : beBytes 0 n = [] := rfl

theorem beBytes_length (w n : Nat) : (beBytes w n).length = w := by
  induction w generalizing n with
  | zero => rfl
  | succ w ih => simp [beBytes, ih]

theorem fromBe_foldl (l : List Byte) (acc : Nat) :
    l.foldl (fun acc b => acc * 256 + b.val) acc = acc * 256 ^ l.length + fromBe l := by
  induction l generalizing acc with
  | nil => simp [fromBe]
  | cons c t ih =>
    have h1 := ih (acc * 256 + c.val)
    have h2 := ih c.val
    have hf : fromBe (c :: t) = t.foldl (fun acc b => acc * 256 + b.val) c.val := by
      simp [fromBe]
    simp only [List.foldl_cons, List.length_cons]
    rw [h1, hf, h2]
    ring

theorem fromBe_cons (b : Byte) (l : List Byte) :
    fromBe (b :: l) = b.val * 256 ^ l.length + fromBe l := by
  have h : fromBe (b :: l) = l.foldl (fun acc b => acc * 256 + b.val) b.val := by
    simp [fromBe]
  rw [h, fromBe_foldl]

theorem fromBe_append (a b : List Byte) :
    fromBe (a ++ b) = fromBe a * 256 ^ b.length + fromBe b := by
  induction a with
  | nil => simp [fromBe]
  | cons c t ih =>
    rw [List.cons_append, fromBe_cons, ih, fromBe_cons]
    rw [List.length_append]
    ring

theorem fromBe_lt (l : List Byte) : fromBe l < 256 ^ l.length := by
  induction l with
  | nil => simp [fromBe]
  | cons b t ih =>
    rw [fromBe_cons]
    have hb : b.val ≤ 255 := Nat.lt_succ_iff.mp b.isLt
    have : b.val * 256 ^ t.length ≤ 255 * 256 ^ t.length :=
      Nat.mul_le_mul_right _ hb
    calc b.val * 256 ^ t.length + fromBe t
        < b.val * 256 ^ t.length + 256 ^ t.length := by omega
      _ ≤ 255 * 256 ^ t.length + 256 ^ t.length := by omega
      _ = 256 ^ (t.length + 1) := by ring
      _ = 256 ^ (b :: t).length := by simp

theorem fromBe_beBytes (w n : Nat) : fromBe (beBytes w n) = n % 256 ^ w := by
  induction w generalizing n with
  | zero => simp [fromBe, Nat.mod_one]
  | succ w ih =>
    rw [beBytes, fromBe_append, ih]
    have hone : fromBe [mkByte n] = n % 256 := by simp [fromBe, mkByte]
    simp only [List.length_singleton, pow_one, hone]
    have h256 : (256 : Nat) ^ (w + 1) = 256 * 256 ^ w := by ring
    rw [h256, Nat.mod_mul]
    ring

theorem beBytes_fromBe (l : List Byte) : beBytes l.length (fromBe l) = l := by
  induction l using List.reverseRecOn with
  | nil => rfl
  | append_singleton t b ih =>
    rw [fromBe_append]
    simp only [List.length_append, List.length_singleton]
    rw [beBytes]
    have hb : fromBe [b] = b.val := by simp [fromBe]
    rw [hb, pow_one]
    have hbl : b.val < 256 := b.isLt
    have hdiv : (fromBe t * 256 + b.val) / 256 = fromBe t := by omega
    have hmod : (fromBe t * 256 + b.val) % 256 = b.val := by omega
    rw [hdiv, ih]
    congr 1
    simp [mkByte, hmod, Fin.ext_iff]

theorem beBytes_fromBe_of_length (l : List Byte) (w : Nat) (h : l.length = w) :
    beBytes w (fromBe l) = l := h ▸ beBytes_fromBe l

theorem beBytes_of_lt (w n : Nat) (h : n < 256 ^ w) :
    fromBe (beBytes w n) = n := by
  rw [fromBe_beBytes, Nat.mod_eq_of_lt h]

theorem beBytes_add (a b n : Nat) :
    beBytes (a + b) n = beBytes a (n / 256 ^ b) ++ beBytes b n := by
  induction b generalizing n with
  | zero => simp [beBytes]
  | succ b ih =>
    have h : a + (b + 1) = (a + b) + 1 := by ring
    rw [h, beBytes, ih]
    rw [beBytes]
    have hdiv : n / 256 ^ (b + 1) = n / 256 / 256 ^ b := by
      rw [Nat.div_div_eq_div_mul]
      congr 1
      ring
    rw [hdiv, List.append_assoc]

theorem beBytes_zero (w : Nat) : beBytes w 0 = List.replicate w 0 := by
  induction w with
  | zero => rfl
  | succ w ih =>
    rw [beBytes, Nat.zero_div, ih]
    have : (mkByte 0) = (0 : Byte) := rfl
    rw [this]
    rw [List.replicate_succ]
    exact (List.replicate_succ' w (0 : Byte)) ▸ rfl

/-- Fuel-driven helper for `byteLen` (structural recursion keeps the kernel
able to evaluate it). -/
def byteLenAux : Nat → Nat → Nat
  | 0, _ => 0
  | fuel + 1, n => if n = 0 then 0 else byteLenAux fuel (n / 256) + 1

/-- Number of bytes in the minimal big-endian representation of `n`. -/
def byteLen (n : Nat) : Nat := byteLenAux n n

theorem byteLenAux_succ (fuel n : Nat) :
    byteLenAux (fuel + 1) n = if n = 0 then 0 else byteLenAux fuel (n / 256) + 1 := rfl

theorem byteLenAux_congr (n : Nat) :
    ∀ f1 f2, n ≤ f1 → n ≤ f2 → byteLenAux f1 n = byteLenAux f2 n := by
  induction n using Nat.strong_induction_on with
  | _ n ih =>
    intro f1 f2 h1 h2
    by_cases hn : n = 0
    · subst hn
      cases f1 <;> cases f2 <;> simp [byteLenAux]
    · obtain ⟨g1, rfl⟩ : ∃ g, f1 = g + 1 := ⟨f1 - 1, by omega⟩
      obtain ⟨g2, rfl⟩ : ∃ g, f2 = g + 1 := ⟨f2 - 1, by omega⟩
      rw [byteLenAux_succ, byteLenAux_succ, if_neg hn, if_neg hn]
      have hlt : n / 256 < n := Nat.div_lt_self (Nat.pos_of_ne_zero hn) (by norm_num)
      rw [ih (n / 256) hlt g1 g2 (by omega) (by omega)]

theorem byteLenAux_eq (fuel n : Nat) (h : n ≤ fuel) : byteLenAux fuel n = byteLen n :=
  byteLenAux_congr n fuel n h (Nat.le_refl n)

theorem byteLen_zero : byteLen 0 = 0 := rfl

theorem byteLen_succ (n : Nat) (h : n ≠ 0) : byteLen n = byteLen (n / 256) + 1 := by
  obtain ⟨m, rfl⟩ : ∃ m, n = m + 1 := ⟨n - 1, by omega⟩
  rw [byteLen, byteLenAux_succ, if_neg h]
  congr 1
  apply byteLenAux_eq
  have := Nat.div_lt_self (Nat.pos_of_ne_zero h) (show 1 < 256 by norm_num)
  omega

theorem byteLen_le_iff (n w : Nat) : byteLen n ≤ w ↔ n < 256 ^ w := by
  induction w generalizing n with
  | zero =>
    simp only [Nat.le_zero, pow_zero, Nat.lt_one_iff]
    constructor
    · intro h
      by_contra hn
      rw [byteLen_succ n hn] at h
      omega
    · intro h; subst h; exact byteLen_zero
  | succ w ih =>
    by_cases hn : n = 0
    · subst hn
      simp [byteLen_zero, Nat.pos_pow_of_pos]
    · rw [byteLen_succ n hn]
      have := ih (n / 256)
      constructor
      · intro h
        have h2 : n / 256 < 256 ^ w := (ih _).mp (by omega)
        have : n < 256 ^ w * 256 := by
          have := Nat.lt_succ_iff.mpr h2.le
          omega
        calc n < 256 * (n / 256) + 256 := by
                have := Nat.mod_lt n (show 0 < 256 by norm_num)
                have hdm := Nat.div_add_mod n 256
                omega
          _ ≤ 256 * (256 ^ w - 1) + 256 := by
                have : n / 256 ≤ 256 ^ w - 1 := by omega
                omega
          _ ≤ 256 ^ (w + 1) := by
                have : 1 ≤ 256 ^ w := Nat.one_le_pow _ _ (by norm_num)
                ring_nf
                omega
      · intro h
        have : n / 256 < 256 ^ w := by
          rw [Nat.div_lt_iff_lt_mul (by norm_num)]
          calc n < 256 ^ (w + 1) := h
            _ = 256 ^ w * 256 := by ring
        have := (ih (n / 256)).mpr this
        omega

theorem lt_of_byteLen (n : Nat) : n < 256 ^ byteLen n :=
  (byteLen_le_iff n (byteLen n)).mp (Nat.le_refl _)

theorem byteLen_pos (n : Nat) (h : n ≠ 0) : 1 ≤ byteLen n := by
  by_contra hc
  have h0 : byteLen n ≤ 0 := by omega
  have := (byteLen_le_iff n 0).mp h0
  simp at this
  exact h this

theorem pow_le_of_byteLen (n : Nat) (h : n ≠ 0) : 256 ^ (byteLen n - 1) ≤ n := by
  by_contra hc
  push_neg at hc
  have := (byteLen_le_iff n (byteLen n - 1)).mpr hc
  have := byteLen_pos n h
  omega

/-- Minimal big-endian representation of `n` (no leading zero byte). -/
def beMin (n : Nat) : List Byte := beBytes (byteLen n) n

theorem beMin_length (n : Nat) : (beMin n).length = byteLen n := beBytes_length _ _

theorem fromBe_beMin (n : Nat) : fromBe (beMin n) = n :=
  beBytes_of_lt _ _ (lt_of_byteLen n)

theorem beMin_head_ne_zero (n : Nat) (h : n ≠ 0) :
    ∃ b t, beMin n = b :: t ∧ b.val ≠ 0 := by
  have h1 : 1 ≤ byteLen n := byteLen_pos n h
  have hsplit : byteLen n = 1 + (byteLen n - 1) := by omega
  have hbm : beMin n = beBytes 1 (n / 256 ^ (byteLen n - 1)) ++ beBytes (byteLen n - 1) n := by
    rw [beMin]
    conv_lhs => rw [hsplit]
    rw [beBytes_add]
  refine ⟨mkByte (n / 256 ^ (byteLen n - 1)), beBytes (byteLen n - 1) n, ?_, ?_⟩
  · rw [hbm]; simp [beBytes]
  · have hlo : 256 ^ (byteLen n - 1) ≤ n := pow_le_of_byteLen n h
    have hhi : n < 256 ^ byteLen n := lt_of_byteLen n
    have hq1 : 1 ≤ n / 256 ^ (byteLen n - 1) := (Nat.one_le_div_iff (Nat.pos_pow_of_pos _ (by norm_num))).mpr hlo
    have hq2 : n / 256 ^ (byteLen n - 1) < 256 := by
      rw [Nat.div_lt_iff_lt_mul (Nat.pos_pow_of_pos _ (by norm_num))]
      calc n < 256 ^ byteLen n := hhi
        _ = 256 ^ (byteLen n - 1) * 256 := by
            rw [← pow_succ]
            congr 1
            omega
        _ = 256 * 256 ^ (byteLen n - 1) := by ring
    simp [mkByte]
    omega

/-! ## Keccak-256

`alloy_primitives::keccak256` is an external dependency of the sources; it is
embedded here as an executable implementation of the standard Keccak-256
(rate 1088, pad 0x01/0x80), validated against the concrete hash values in the
repository's own tests. -/

/-- 64-bit left rotation. -/
def rotl64 (x n : Nat) : Nat :=
  ((x <<< n) ||| (x >>> (64 - n))) % 2 ^ 64

/-- Bitwise NOT within 64 bits. -/
def maskNot (v : Nat) : Nat := (2 ^ 64 - 1) ^^^ v

/-- The 25-lane Keccak state, kept flat for fast kernel evaluation. -/
structure KState where
  s0 : Nat
  s1 : Nat
  s2 : Nat
  s3 : Nat
  s4 : Nat
  s5 : Nat
  s6 : Nat
  s7 : Nat
  s8 : Nat
  s9 : Nat
  s10 : Nat
  s11 : Nat
  s12 : Nat
  s13 : Nat
  s14 : Nat
  s15 : Nat
  s16 : Nat
  s17 : Nat
  s18 : Nat
  s19 : Nat
  s20 : Nat
  s21 : Nat
  s22 : Nat
  s23 : Nat
  s24 : Nat

/-- One Keccak-f[1600] round (theta, rho, pi, chi, iota fused). -/
def keccakRound (t : KState) (rc : Nat) : KState :=
  let c0 := t.s0 ^^^ t.s5 ^^^ t.s10 ^^^ t.s15 ^^^ t.s20
  let c1 := t.s1 ^^^ t.s6 ^^^ t.s11 ^^^ t.s16 ^^^ t.s21
  let c2 := t.s2 ^^^ t.s7 ^^^ t.s12 ^^^ t.s17 ^^^ t.s22
  let c3 := t.s3 ^^^ t.s8 ^^^ t.s13 ^^^ t.s18 ^^^ t.s23
  let c4 := t.s4 ^^^ t.s9 ^^^ t.s14 ^^^ t.s19 ^^^ t.s24
  let d0 := c4 ^^^ rotl64 c1 1
  let d1 := c0 ^^^ rotl64 c2 1
  let d2 := c1 ^^^ rotl64 c3 1
  let d3 := c2 ^^^ rotl64 c4 1
  let d4 := c3 ^^^ rotl64 c0 1
  let b0 := t.s0 ^^^ d0
  let b1 := rotl64 (t.s6 ^^^ d1) 44
  let b2 := rotl64 (t.s12 ^^^ d2) 43
  let b3 := rotl64 (t.s18 ^^^ d3) 21
  let b4 := rotl64 (t.s24 ^^^ d4) 14
  let b5 := rotl64 (t.s3 ^^^ d3) 28
  let b6 := rotl64 (t.s9 ^^^ d4) 20
  let b7 := rotl64 (t.s10 ^^^ d0) 3
  let b8 := rotl64 (t.s16 ^^^ d1) 45
  let b9 := rotl64 (t.s22 ^^^ d2) 61
  let b10 := rotl64 (t.s1 ^^^ d1) 1
  let b11 := rotl64 (t.s7 ^^^ d2) 6
  let b12 := rotl64 (t.s13 ^^^ d3) 25
  let b13 := rotl64 (t.s19 ^^^ d4) 8
  let b14 := rotl64 (t.s20 ^^^ d0) 18
  let b15 := rotl64 (t.s4 ^^^ d4) 27
  let b16 := rotl64 (t.s5 ^^^ d0) 36
  let b17 := rotl64 (t.s11 ^^^ d1) 10
  let b18 := rotl64 (t.s17 ^^^ d2) 15
  let b19 := rotl64 (t.s23 ^^^ d3) 56
  let b20 := rotl64 (t.s2 ^^^ d2) 62
  let b21 := rotl64 (t.s8 ^^^ d3) 55
  let b22 := rotl64 (t.s14 ^^^ d4) 39
  let b23 := rotl64 (t.s15 ^^^ d0) 41
  let b24 := rotl64 (t.s21 ^^^ d1) 2
  KState.mk
    ((b0 ^^^ ((maskNot b1) &&& b2)) ^^^ rc)
    (b1 ^^^ ((maskNot b2) &&& b3))
    (b2 ^^^ ((maskNot b3) &&& b4))
    (b3 ^^^ ((maskNot b4) &&& b0))
    (b4 ^^^ ((maskNot b0) &&& b1))
    (b5 ^^^ ((maskNot b6) &&& b7))
    (b6 ^^^ ((maskNot b7) &&& b8))
    (b7 ^^^ ((maskNot b8) &&& b9))
    (b8 ^^^ ((maskNot b9) &&& b5))
    (b9 ^^^ ((maskNot b5) &&& b6))
    (b10 ^^^ ((maskNot b11) &&& b12))
    (b11 ^^^ ((maskNot b12) &&& b13))
    (b12 ^^^ ((maskNot b13) &&& b14))
    (b13 ^^^ ((maskNot b14) &&& b10))
    (b14 ^^^ ((maskNot b10) &&& b11))
    (b15 ^^^ ((maskNot b16) &&& b17))
    (b16 ^^^ ((maskNot b17) &&& b18))
    (b17 ^^^ ((maskNot b18) &&& b19))
    (b18 ^^^ ((maskNot b19) &&& b15))
    (b19 ^^^ ((maskNot b15) &&& b16))
    (b20 ^^^ ((maskNot b21) &&& b22))
    (b21 ^^^ ((maskNot b22) &&& b23))
    (b22 ^^^ ((maskNot b23) &&& b24))
    (b23 ^^^ ((maskNot b24) &&& b20))
    (b24 ^^^ ((maskNot b20) &&& b21))

/-- Keccak round constants. -/
def keccakRC : List Nat :=
  [0x1, 0x8082, 0x800000000000808a, 0x8000000080008000, 0x808b, 0x80000001,
   0x8000000080008081, 0x8000000000008009, 0x8a, 0x88, 0x80008009, 0x8000000a,
   0x8000808b, 0x800000000000008b, 0x8000000000008089, 0x8000000000008003,
   0x8000000000008002, 0x8000000000000080, 0x800a, 0x800000008000000a,
   0x8000000080008081, 0x8000000000008080, 0x80000001, 0x8000000080008008]

/-- The Keccak-f[1600] permutation (24 rounds). -/
def keccakF (s : KState) : KState :=
  keccakRC.foldl keccakRound s

def chunksAux : Nat → List Byte → List (List Byte)
  | 0, _ => []
  | fuel + 1, l => if l = [] then [] else l.take 136 :: chunksAux fuel (l.drop 136)

def chunks136 (l : List Byte) : List (List Byte) := chunksAux l.length l

/-- Read lane `i` of a 136-byte rate block (8 bytes, little endian). -/
def blockLane (blk : List Byte) (i : Nat) : Nat :=
  fromLe ((blk.drop (8 * i)).take 8)

/-- XOR one padded 136-byte block into the first 17 lanes of the state. -/
def xorBlock (t : KState) (blk : List Byte) : KState :=
  { t with
    s0 := t.s0 ^^^ blockLane blk 0, s1 := t.s1 ^^^ blockLane blk 1
    s2 := t.s2 ^^^ blockLane blk 2, s3 := t.s3 ^^^ blockLane blk 3
    s4 := t.s4 ^^^ blockLane blk 4, s5 := t.s5 ^^^ blockLane blk 5
    s6 := t.s6 ^^^ blockLane blk 6, s7 := t.s7 ^^^ blockLane blk 7
    s8 := t.s8 ^^^ blockLane blk 8, s9 := t.s9 ^^^ blockLane blk 9
    s10 := t.s10 ^^^ blockLane blk 10, s11 := t.s11 ^^^ blockLane blk 11
    s12 := t.s12 ^^^ blockLane blk 12, s13 := t.s13 ^^^ blockLane blk 13
    s14 := t.s14 ^^^ blockLane blk 14, s15 := t.s15 ^^^ blockLane blk 15
    s16 := t.s16 ^^^ blockLane blk 16 }

/-- Multi-rate padding 0x01 .. 0x80 for rate 136. -/
def keccakPad (msg : List Byte) : List Byte :=
  let padLen := 136 - msg.length % 136
  if padLen = 1 then msg ++ [mkByte 0x81]
  else msg ++ mkByte 0x01 :: List.replicate (padLen - 2) 0 ++ [mkByte 0x80]

/-- Sponge absorption of all blocks. -/
def keccakAbsorb (t : KState) : List (List Byte) → KState
  | [] => t
  | blk :: rest => keccakAbsorb (keccakF (xorBlock t blk)) rest

/-- The all-zero initial sponge state. -/
def kstate0 : KState :=
  KState.mk 0 0 0 0 0 0 0 0 0 0 0 0 0 0 0 0 0 0 0 0 0 0 0 0 0

/-- Keccak-256 of a byte string (32-byte digest). -/
def keccak256 (msg : List Byte) : List Byte :=
  let t := keccakAbsorb kstate0 (chunks136 (keccakPad msg))
  leBytes 8 t.s0 ++ leBytes 8 t.s1 ++ leBytes 8 t.s2 ++ leBytes 8 t.s3

/-! ## RLP

The RLP primitives (`alloy_rlp`) are an external dependency of the sources;
they are embedded from the standard recursive-length-prefix wire format
exactly as used by Ethereum transaction and receipt encoding, including the
canonicality checks (non-canonical single byte, non-canonical size, leading
zero) performed by the Rust library on decode. -/

/-- Decode errors of the RLP layer (`alloy_rlp::Error`). -/
inductive RlpError where
  | inputTooShort
  | nonCanonicalSingleByte
  | nonCanonicalSize
  | leadingZero
  | overflowErr
  | unexpectedString
  | unexpectedList
  | unexpectedLength
  | customErr
deriving DecidableEq, Repr

/-- An RLP header (`alloy_rlp::Header`). -/
structure RlpHeader where
  list : Bool
  payload_length : Nat
deriving DecidableEq, Repr

/-- Encode an RLP header (short form below 56 payload bytes, long form with a
minimal big-endian length otherwise). -/
def encodeHeader (h : RlpHeader) : List Byte :=
  let base : Nat := if h.list then 0xc0 else 0x80
  if h.payload_length < 56 then mkByte (base + h.payload_length) :: []
  else mkByte (base + 55 + byteLen h.payload_length) :: beMin h.payload_length

/-- Final buffer-length check shared by every header-decode branch. -/
def checkRemaining (h : RlpHeader) (rest : List Byte) :
    Except RlpError (RlpHeader × List Byte) :=
  if rest.length < h.payload_length then .error .inputTooShort else .ok (h, rest)

/-- Long-form length decoding (`static_left_pad` semantics: leading zero
rejected, short payloads rejected as non-canonical). -/
def decodeLongLen (isList : Bool) (lol : Nat) (rest : List Byte) :
    Except RlpError (RlpHeader × List Byte) :=
  if rest.length < lol then .error .inputTooShort
  else if (rest.take lol).isEmpty then .error .inputTooShort
  else if ((rest.take lol).headD 0).val = 0 then .error .leadingZero
  else
    let len := fromBe (rest.take lol)
    if len < 56 then .error .nonCanonicalSize
    else checkRemaining ⟨isList, len⟩ (rest.drop lol)

/-- `alloy_rlp::Header::decode`.  A single byte below 0x80 yields a
payload-length-one string header without consuming the byte. -/
def decodeHeader : List Byte → Except RlpError (RlpHeader × List Byte)
  | [] => .error .inputTooShort
  | b :: rest =>
    if b.val ≤ 0x7f then
      checkRemaining ⟨false, 1⟩ (b :: rest)
    else if b.val ≤ 0xb7 then
      let len := b.val - 0x80
      if len = 1 then
        if rest.isEmpty then .error .inputTooShort
        else if (rest.headD 0).val < 0x80 then .error .nonCanonicalSingleByte
        else checkRemaining ⟨false, 1⟩ rest
      else checkRemaining ⟨false, len⟩ rest
    else if b.val ≤ 0xbf then
      decodeLongLen false (b.val - 0xb7) rest
    else if b.val ≤ 0xf7 then
      checkRemaining ⟨true, b.val - 0xc0⟩ rest
    else
      decodeLongLen true (b.val - 0xf7) rest

/-- `alloy_rlp::Header::decode_bytes`: decode a header, require the expected
kind, and split off exactly the payload. -/
def decodeBytesPayload (expectList : Bool) (buf : List Byte) :
    Except RlpError (List Byte × List Byte) :=
  match decodeHeader buf with
  | .error e => .error e
  | .ok (h, rest) =>
    if h.list != expectList then
      .error (if expectList then .unexpectedString else .unexpectedList)
    else .ok (rest.take h.payload_length, rest.drop h.payload_length)

/-- Unsigned-integer RLP encoding (`alloy_rlp` for `u64` / `u128` / `U256`):
zero is the empty string, a single byte below 0x80 stands for itself,
otherwise a minimal big-endian string. -/
def encodeUint (n : Nat) : List Byte :=
  if n = 0 then [mkByte 0x80]
  else if n < 0x80 then [mkByte n]
  else mkByte (0x80 + byteLen n) :: beMin n

/-- Unsigned-integer RLP decoding for a `w`-byte-wide Rust integer
(`static_left_pad` semantics). -/
def decodeUint (w : Nat) (buf : List Byte) : Except RlpError (Nat × List Byte) :=
  match decodeBytesPayload false buf with
  | .error e => .error e
  | .ok (payload, rest) =>
    if w < payload.length then .error .overflowErr
    else
      match payload with
      | [] => .ok (0, rest)
      | c :: _ => if c.val = 0 then .error .leadingZero else .ok (fromBe payload, rest)

/-- Byte-string RLP encoding (`impl Encodable for [u8]`, also used by
`Bytes`, `B256` and `Address`). -/
def encodeString (l : List Byte) : List Byte :=
  match l with
  | [b] => if b.val ≥ 0x80 then encodeHeader ⟨false, 1⟩ ++ l else l
  | _ => encodeHeader ⟨false, l.length⟩ ++ l

/-- Byte-string RLP decoding (`Bytes`). -/
def decodeString (buf : List Byte) : Except RlpError (List Byte × List Byte) :=
  decodeBytesPayload false buf

/-- Fixed-width byte-string RLP decoding (`FixedBytes<N>`: the payload must
be exactly `n` bytes). -/
def decodeFixedBytes (n : Nat) (buf : List Byte) :
    Except RlpError (List Byte × List Byte) :=
  match decodeBytesPayload false buf with
  | .error e => .error e
  | .ok (payload, rest) =>
    if payload.length = n then .ok (payload, rest) else .error .unexpectedLength

/-- Boolean RLP encoding (`true` is 0x01, `false` the empty string). -/
def encodeBool (b : Bool) : List Byte :=
  if b then [mkByte 0x01] else [mkByte 0x80]

/-- Boolean RLP decoding via `u8`. -/
def decodeBool (buf : List Byte) : Except RlpError (Bool × List Byte) :=
  match decodeUint 1 buf with
  | .error e => .error e
  | .ok (0, rest) => .ok (false, rest)
  | .ok (1, rest) => .ok (true, rest)
  | .ok _ => .error .customErr

/-! ### RLP round-trip lemmas -/

theorem decodeHeader_cons (b : Byte) (rest : List Byte) :
    decodeHeader (b :: rest) =
      (if b.val ≤ 0x7f then checkRemaining ⟨false, 1⟩ (b :: rest)
       else if b.val ≤ 0xb7 then
         (if b.val - 0x80 = 1 then
            if rest.isEmpty then .error .inputTooShort
            else if (rest.headD 0).val < 0x80 then .error .nonCanonicalSingleByte
            else checkRemaining ⟨false, 1⟩ rest
          else checkRemaining ⟨false, b.val - 0x80⟩ rest)
       else if b.val ≤ 0xbf then decodeLongLen false (b.val - 0xb7) rest
       else if b.val ≤ 0xf7 then checkRemaining ⟨true, b.val - 0xc0⟩ rest
       else decodeLongLen true (b.val - 0xf7) rest) := rfl

theorem checkRemaining_ok (h : RlpHeader) (rest : List Byte)
    (hle : h.payload_length ≤ rest.length) :
    checkRemaining h rest = .ok (h, rest) := by
  simp [checkRemaining, Nat.not_lt.mpr hle]

theorem decodeHeader_short (isList : Bool) (payload rest : List Byte)
    (hn : payload.length < 56) (h1 : isList = true ∨ payload.length ≠ 1) :
    decodeHeader (encodeHeader ⟨isList, payload.length⟩ ++ payload ++ rest) =
      .ok (⟨isList, payload.length⟩, payload ++ rest) := by
  have hrem : payload.length ≤ (payload ++ rest).length := by simp
  cases isList with
  | true =>
    have henc : encodeHeader ⟨true, payload.length⟩ = [mkByte (0xc0 + payload.length)] := by
      simp [encodeHeader, hn]
    have hb : (mkByte (0xc0 + payload.length)).val = 0xc0 + payload.length := by
      simp [mkByte]; omega
    rw [henc, List.append_assoc, List.singleton_append, decodeHeader_cons, hb]
    rw [if_neg (by omega), if_neg (by omega), if_neg (by omega), if_pos (by omega)]
    have he : 0xc0 + payload.length - 0xc0 = payload.length := by omega
    rw [he]
    exact checkRemaining_ok _ _ hrem
  | false =>
    have hne : payload.length ≠ 1 := by
      rcases h1 with h1 | h1
      · exact absurd h1 (by simp)
      · exact h1
    have henc : encodeHeader ⟨false, payload.length⟩ = [mkByte (0x80 + payload.length)] := by
      simp [encodeHeader, hn]
    have hb : (mkByte (0x80 + payload.length)).val = 0x80 + payload.length := by
      simp [mkByte]; omega
    rw [henc, List.append_assoc, List.singleton_append, decodeHeader_cons, hb]
    rw [if_neg (by omega), if_pos (by omega)]
    have he : 0x80 + payload.length - 0x80 = payload.length := by omega
    rw [he, if_neg hne]
    exact checkRemaining_ok _ _ hrem

theorem decodeHeader_string_one (b : Byte) (rest : List Byte) (hb : 0x80 ≤ b.val) :
    decodeHeader (encodeHeader ⟨false, 1⟩ ++ b :: rest) =
      .ok (⟨false, 1⟩, b :: rest) := by
  have henc : encodeHeader ⟨false, 1⟩ = [mkByte 0x81] := by
    simp [encodeHeader]
  have h81 : (mkByte 0x81).val = 0x81 := rfl
  rw [henc, List.singleton_append, decodeHeader_cons, h81]
  rw [if_neg (by omega), if_pos (by omega), if_pos (by omega)]
  simp only [List.isEmpty_cons, List.headD_cons, Bool.false_eq_true, if_false]
  rw [if_neg (by omega : ¬ b.val < 0x80)]
  exact checkRemaining_ok _ _ (by simp)

theorem take_beMin (n : Nat) (tail : List Byte) :
    (beMin n ++ tail).take (byteLen n) = beMin n := by
  rw [← beMin_length n]
  exact List.take_left _ _

theorem drop_beMin (n : Nat) (tail : List Byte) :
    (beMin n ++ tail).drop (byteLen n) = tail := by
  rw [← beMin_length n]
  exact List.drop_left _ _

theorem decodeLongLen_beMin (isList : Bool) (payload rest : List Byte)
    (hn : 56 ≤ payload.length) :
    decodeLongLen isList (byteLen payload.length) (beMin payload.length ++ (payload ++ rest)) =
      .ok (⟨isList, payload.length⟩, payload ++ rest) := by
  obtain ⟨c, t, hct, hc0⟩ := beMin_head_ne_zero payload.length (by omega)
  have hlol : ¬ ((beMin payload.length ++ (payload ++ rest)).length < byteLen payload.length) := by
    simp [beMin_length]
  have hne : (beMin payload.length).isEmpty = false := by
    rw [hct]; rfl
  have hhd : (beMin payload.length).headD 0 = c := by
    rw [hct]; rfl
  rw [decodeLongLen, if_neg hlol, take_beMin, hne, hhd]
  simp only [Bool.false_eq_true, if_false]
  rw [if_neg hc0, fromBe_beMin]
  rw [if_neg (by omega : ¬ payload.length < 56)]
  rw [drop_beMin]
  exact checkRemaining_ok _ _ (by simp)

theorem decodeHeader_long (isList : Bool) (payload rest : List Byte)
    (hn : 56 ≤ payload.length) (hw : payload.length < 2 ^ 64) :
    decodeHeader (encodeHeader ⟨isList, payload.length⟩ ++ payload ++ rest) =
      .ok (⟨isList, payload.length⟩, payload ++ rest) := by
  have hbl1 : 1 ≤ byteLen payload.length := byteLen_pos _ (by omega)
  have hbl8 : byteLen payload.length ≤ 8 :=
    (byteLen_le_iff _ 8).mpr (by norm_num at hw ⊢; omega)
  cases isList with
  | true =>
    have henc : encodeHeader ⟨true, payload.length⟩ =
        mkByte (0xc0 + 55 + byteLen payload.length) :: beMin payload.length := by
      simp [encodeHeader, Nat.not_lt.mpr hn]
    have hb : (mkByte (0xc0 + 55 + byteLen payload.length)).val =
        0xc0 + 55 + byteLen payload.length := by
      simp [mkByte]; omega
    rw [henc, List.append_assoc, List.cons_append, decodeHeader_cons, hb]
    rw [if_neg (by omega), if_neg (by omega), if_neg (by omega), if_neg (by omega)]
    have he : 0xc0 + 55 + byteLen payload.length - 0xf7 = byteLen payload.length := by omega
    rw [he]
    exact decodeLongLen_beMin true payload rest hn
  | false =>
    have henc : encodeHeader ⟨false, payload.length⟩ =
        mkByte (0x80 + 55 + byteLen payload.length) :: beMin payload.length := by
      simp [encodeHeader, Nat.not_lt.mpr hn]
    have hb : (mkByte (0x80 + 55 + byteLen payload.length)).val =
        0x80 + 55 + byteLen payload.length := by
      simp [mkByte]; omega
    rw [henc, List.append_assoc, List.cons_append, decodeHeader_cons, hb]
    rw [if_neg (by omega), if_neg (by omega), if_pos (by omega)]
    have he : 0x80 + 55 + byteLen payload.length - 0xb7 = byteLen payload.length := by omega
    rw [he]
    exact decodeLongLen_beMin false payload rest hn

theorem decodeHeader_single (b : Byte) (rest : List Byte) (hb : b.val ≤ 0x7f) :
    decodeHeader (b :: rest) = .ok (⟨false, 1⟩, b :: rest) := by
  rw [decodeHeader_cons, if_pos hb]
  exact checkRemaining_ok _ _ (by simp)

theorem decodeBytesPayload_ok (expectList : Bool) (buf payload rest : List Byte)
    (h : decodeHeader buf = .ok (⟨expectList, payload.length⟩, payload ++ rest)) :
    decodeBytesPayload expectList buf = .ok (payload, rest) := by
  simp [decodeBytesPayload, h, List.take_left, List.drop_left]

theorem decodeString_encodeString (l rest : List Byte) (hw : l.length < 2 ^ 64) :
    decodeString (encodeString l ++ rest) = .ok (l, rest) := by
  match l with
  | [] =>
    have henc : encodeString [] = encodeHeader ⟨false, 0⟩ ++ [] := by
      simp [encodeString]
    rw [henc]
    exact decodeBytesPayload_ok false _ [] rest
      (decodeHeader_short false [] rest (by norm_num) (Or.inr (by norm_num)))
  | [b] =>
    by_cases hb : b.val ≥ 0x80
    · have henc : encodeString [b] = encodeHeader ⟨false, 1⟩ ++ [b] := by
        simp [encodeString, hb]
      rw [henc]
      apply decodeBytesPayload_ok false _ [b] rest
      have := decodeHeader_string_one b rest hb
      simpa using this
    · have henc : encodeString [b] = [b] := by
        simp [encodeString]
        omega
      rw [henc, List.singleton_append]
      apply decodeBytesPayload_ok false _ [b] rest
      simpa using decodeHeader_single b rest (by omega)
  | a :: b :: t =>
    have hlen2 : (a :: b :: t).length ≠ 1 := by simp
    have henc : encodeString (a :: b :: t) =
        encodeHeader ⟨false, (a :: b :: t).length⟩ ++ (a :: b :: t) := by
      rfl
    rw [henc]
    by_cases hshort : (a :: b :: t).length < 56
    · exact decodeBytesPayload_ok false _ _ rest
        (decodeHeader_short false _ rest hshort (Or.inr hlen2))
    · exact decodeBytesPayload_ok false _ _ rest
        (decodeHeader_long false _ rest (by omega) hw)

theorem decodeFixedBytes_encodeString (n : Nat) (l rest : List Byte)
    (hl : l.length = n) (hw : l.length < 2 ^ 64) :
    decodeFixedBytes n (encodeString l ++ rest) = .ok (l, rest) := by
  have h := decodeString_encodeString l rest hw
  rw [decodeString] at h
  simp [decodeFixedBytes, h, hl]

theorem encodeUint_big (n : Nat) (hn : 0x80 ≤ n) (hw : byteLen n < 56) :
    encodeUint n = encodeHeader ⟨false, byteLen n⟩ ++ beMin n := by
  rw [encodeUint, if_neg (by omega), if_neg (by omega)]
  rw [encodeHeader]
  simp only [hw, if_pos]
  simp

theorem decodeUint_encodeUint (w n : Nat) (rest : List Byte)
    (hn : n < 256 ^ w) (hw : w ≤ 55) :
    decodeUint w (encodeUint n ++ rest) = .ok (n, rest) := by
  by_cases h0 : n = 0
  · subst h0
    have henc : encodeUint 0 = encodeHeader ⟨false, 0⟩ ++ ([] : List Byte) := by
      simp [encodeUint, encodeHeader]
    rw [henc, List.append_nil]
    have hh := decodeHeader_short false [] rest (by norm_num) (Or.inr (by norm_num))
    rw [List.append_nil] at hh
    have hbp := decodeBytesPayload_ok false _ [] rest (by simpa using hh)
    simp [decodeUint, hbp]
  · have hw1 : 1 ≤ w := by
      by_contra hc
      have : w = 0 := by omega
      subst this
      simp at hn
      omega
    by_cases hsmall : n < 0x80
    · have henc : encodeUint n = [mkByte n] := by
        rw [encodeUint, if_neg h0, if_pos hsmall]
      have hval : (mkByte n).val = n := by simp [mkByte]; omega
      rw [henc, List.singleton_append]
      have hh := decodeHeader_single (mkByte n) rest (by omega)
      have hbp := decodeBytesPayload_ok false _ [mkByte n] rest (by simpa using hh)
      have hnlt : ¬ w < 1 := by omega
      have hnz : ¬ (mkByte n).val = 0 := by omega
      simp [decodeUint, hbp, hnlt, hnz, fromBe, hval, h0]
    · have hbig : 0x80 ≤ n := by omega
      have hblw : byteLen n ≤ w := (byteLen_le_iff n w).mpr hn
      have hbl1 : 1 ≤ byteLen n := byteLen_pos n h0
      obtain ⟨c, t, hct, hc0⟩ := beMin_head_ne_zero n h0
      have hfrom : fromBe (beMin n) = n := fromBe_beMin n
      by_cases hbl1' : byteLen n = 1
      · have hbMin : beMin n = [mkByte n] := by
          rw [beMin, hbl1']
          have : n < 256 := by
            have := (byteLen_le_iff n 1).mp (Nat.le_of_eq hbl1')
            simpa using this
          simp [beBytes]
        have hval : (mkByte n).val = n := by
          simp [mkByte]
          have := (byteLen_le_iff n 1).mp (Nat.le_of_eq hbl1')
          simp at this
          omega
        have henc : encodeUint n = encodeHeader ⟨false, 1⟩ ++ [mkByte n] := by
          rw [encodeUint_big n hbig (by omega), hbMin, hbl1']
        rw [henc]
        have hh := decodeHeader_string_one (mkByte n) rest (by omega)
        have hbp := decodeBytesPayload_ok false _ [mkByte n] rest (by simpa using hh)
        have hnlt : ¬ w < 1 := by omega
        have hnz : ¬ (mkByte n).val = 0 := by omega
        simp [decodeUint, hbp, hnlt, hnz, fromBe, hval, h0]
      · have henc : encodeUint n = encodeHeader ⟨false, byteLen n⟩ ++ beMin n :=
          encodeUint_big n hbig (by omega)
        rw [henc]
        have hh := decodeHeader_short false (beMin n) rest
          (by rw [beMin_length]; omega) (Or.inr (by rw [beMin_length]; omega))
        rw [beMin_length] at hh
        have hbp := decodeBytesPayload_ok false _ (beMin n) rest
          (by rw [beMin_length]; exact hh)
        have hnlt : ¬ w < (beMin n).length := by rw [beMin_length]; omega
        simp only [decodeUint, hbp, if_neg hnlt]
        rw [hct]
        simp only [if_neg hc0]
        rw [← hct, hfrom]

theorem decodeBool_encodeBool (b : Bool) (rest : List Byte) :
    decodeBool (encodeBool b ++ rest) = .ok (b, rest) := by
  cases b with
  | false =>
    have henc : encodeBool false = encodeUint 0 := by
      simp [encodeBool, encodeUint]
    rw [henc]
    have h := decodeUint_encodeUint 1 0 rest (by norm_num) (by norm_num)
    simp [decodeBool, h]
  | true =>
    have henc : encodeBool true = encodeUint 1 := by
      simp [encodeBool, encodeUint]
    rw [henc]
    have h := decodeUint_encodeUint 1 1 rest (by norm_num) (by norm_num)
    simp [decodeBool, h]

theorem encodeUint_head_ne_empty_string (n : Nat) (h0 : n ≠ 0) (hw : byteLen n ≤ 55) :
    ∃ b t, encodeUint n = b :: t ∧ b.val ≠ 0x80 := by
  by_cases hsmall : n < 0x80
  · refine ⟨mkByte n, [], ?_, ?_⟩
    · rw [encodeUint, if_neg h0, if_pos hsmall]
    · have : (mkByte n).val = n := by simp [mkByte]; omega
      omega
  · refine ⟨mkByte (0x80 + byteLen n), beMin n, ?_, ?_⟩
    · rw [encodeUint, if_neg h0, if_neg hsmall]
    · have hbl1 : 1 ≤ byteLen n := byteLen_pos n h0
      have hval : (mkByte (0x80 + byteLen n)).val = 0x80 + byteLen n := by
        simp [mkByte]; omega
      rw [hval]
      omega

/-! ## TxDeposit (crates/consensus/src/transaction/deposit.rs)

`TxKind` is `alloy_primitives::TxKind` (a call address or the create
marker); addresses and hashes are byte lists whose lengths (20 and 32) are
carried as validity hypotheses. `from` and `to` are Lean keywords, hence
the field names `from_` and `to_`. -/

/-- `alloy_primitives::TxKind`. -/
inductive TxKind where
  | create
  | call (addr : List Byte)
deriving DecidableEq, Repr

/-- The deposit transaction (`TxDeposit`), with `u128` fields as `Nat`. -/
structure TxDeposit where
  source_hash : List Byte
  from_ : List Byte
  to_ : TxKind
  mint : Option Nat
  value : Nat
  gas_limit : Nat
  is_system_transaction : Bool
  eth_value : Option Nat
  input : List Byte
  eth_tx_value : Option Nat
deriving DecidableEq, Repr

/-- RLP encoding of `TxKind` (create is the empty string). -/
def encodeTxKind : TxKind → List Byte
  | .create => [mkByte 0x80]
  | .call a => encodeString a

/-- RLP decoding of `TxKind` (an empty-string byte yields create, anything
else must be a 20-byte address string). -/
def decodeTxKind : List Byte → Except RlpError (TxKind × List Byte)
  | [] => .error .inputTooShort
  | b :: rest =>
    if b.val = 0x80 then .ok (.create, rest)
    else
      match decodeFixedBytes 20 (b :: rest) with
      | .error e => .error e
      | .ok (a, r) => .ok (.call a, r)

/-- `TxDeposit::decode_u128_from_rlp`: an empty-string byte yields `None`,
anything else decodes as a `u128`. -/
def decode_u128_from_rlp : List Byte → Except RlpError (Option Nat × List Byte)
  | [] => .error .inputTooShort
  | b :: rest =>
    if b.val = 0x80 then .ok (none, rest)
    else
      match decodeUint 16 (b :: rest) with
      | .error e => .error e
      | .ok (v, r) => .ok (some v, r)

/-- `TxDeposit::decode_optional_u128_from_rlp`: end of buffer yields `None`. -/
def decode_optional_u128_from_rlp (buf : List Byte) :
    Except RlpError (Option Nat × List Byte) :=
  if buf.isEmpty then .ok (none, buf) else decode_u128_from_rlp buf

/-- Encoding of an optional `u128` field in the deposit body (absent
encodes as the RLP empty string). -/
def encodeOptU128 : Option Nat → List Byte
  | some m => encodeUint m
  | none => [mkByte 0x80]

/-- Encoding of the trailing optional `u128` field (absent is omitted). -/
def encodeOptTail : Option Nat → List Byte
  | some m => encodeUint m
  | none => []

/-- `TxDeposit::rlp_encode_fields`. -/
def TxDeposit.rlp_encode_fields (tx : TxDeposit) : List Byte :=
  encodeString tx.source_hash ++
  encodeString tx.from_ ++
  encodeTxKind tx.to_ ++
  encodeOptU128 tx.mint ++
  encodeUint tx.value ++
  encodeUint tx.gas_limit ++
  encodeBool tx.is_system_transaction ++
  encodeOptU128 tx.eth_value ++
  encodeString tx.input ++
  encodeOptTail tx.eth_tx_value

/-- `TxDeposit::rlp_encoded_fields_length` (each alloy `length()` is the
length of the field's RLP encoding; absent `mint` / `eth_value` count one
byte, an absent `eth_tx_value` counts zero). -/
def TxDeposit.rlp_encoded_fields_length (tx : TxDeposit) : Nat :=
  (encodeString tx.source_hash).length +
  (encodeString tx.from_).length +
  (encodeTxKind tx.to_).length +
  (encodeOptU128 tx.mint).length +
  (encodeUint tx.value).length +
  (encodeUint tx.gas_limit).length +
  (encodeBool tx.is_system_transaction).length +
  (encodeOptU128 tx.eth_value).length +
  (encodeString tx.input).length +
  (encodeOptTail tx.eth_tx_value).length

/-- `TxDeposit::rlp_encode`: list header followed by the fields. -/
def TxDeposit.rlp_encode (tx : TxDeposit) : List Byte :=
  encodeHeader ⟨true, tx.rlp_encoded_fields_length⟩ ++ tx.rlp_encode_fields

/-- `TxDeposit::rlp_decode_fields`. -/
def TxDeposit.rlp_decode_fields (buf : List Byte) :
    Except RlpError (TxDeposit × List Byte) :=
  match decodeFixedBytes 32 buf with
  | .error e => .error e
  | .ok (source_hash, b1) =>
  match decodeFixedBytes 20 b1 with
  | .error e => .error e
  | .ok (from_, b2) =>
  match decodeTxKind b2 with
  | .error e => .error e
  | .ok (to_, b3) =>
  match decode_u128_from_rlp b3 with
  | .error e => .error e
  | .ok (mint, b4) =>
  match decodeUint 32 b4 with
  | .error e => .error e
  | .ok (value, b5) =>
  match decodeUint 8 b5 with
  | .error e => .error e
  | .ok (gas_limit, b6) =>
  match decodeBool b6 with
  | .error e => .error e
  | .ok (is_system_transaction, b7) =>
  match decode_u128_from_rlp b7 with
  | .error e => .error e
  | .ok (eth_value, b8) =>
  match decodeString b8 with
  | .error e => .error e
  | .ok (input, b9) =>
  match decode_optional_u128_from_rlp b9 with
  | .error e => .error e
  | .ok (eth_tx_value, b10) =>
    .ok (⟨source_hash, from_, to_, mint, value, gas_limit, is_system_transaction,
          eth_value, input, eth_tx_value⟩, b10)

/-- `TxDeposit::rlp_decode`: header, list check, length bound, fields,
full-consumption check. -/
def TxDeposit.rlp_decode (buf : List Byte) :
    Except RlpError (TxDeposit × List Byte) :=
  match decodeHeader buf with
  | .error e => .error e
  | .ok (h, rest) =>
    if !h.list then .error .unexpectedString
    else if h.payload_length > rest.length then .error .inputTooShort
    else
      match TxDeposit.rlp_decode_fields rest with
      | .error e => .error e
      | .ok (this, rest') =>
        if rest'.length + h.payload_length ≠ rest.length then .error .unexpectedLength
        else .ok (this, rest')

/-- Validity of a `TxDeposit` value: every byte field has the width of its
Rust type, every numeric field fits its Rust integer type, and the input
payload fits a Rust allocation (`isize::MAX`). -/
def ValidTx (tx : TxDeposit) : Prop :=
  tx.source_hash.length = 32 ∧
  tx.from_.length = 20 ∧
  (∀ a, tx.to_ = .call a → a.length = 20) ∧
  (∀ m, tx.mint = some m → m < 2 ^ 128) ∧
  tx.value < 2 ^ 256 ∧
  tx.gas_limit < 2 ^ 64 ∧
  (∀ v, tx.eth_value = some v → v < 2 ^ 128) ∧
  tx.input.length < 2 ^ 63 ∧
  (∀ v, tx.eth_tx_value = some v → v < 2 ^ 128)

/-! ### TxDeposit round-trip lemmas -/

theorem decodeTxKind_encodeTxKind (k : TxKind) (rest : List Byte)
    (hv : ∀ a, k = .call a → a.length = 20) :
    decodeTxKind (encodeTxKind k ++ rest) = .ok (k, rest) := by
  cases k with
  | create =>
    have h : encodeTxKind .create ++ rest = mkByte 0x80 :: rest := rfl
    rw [h, decodeTxKind]
    rw [if_pos (show (mkByte 0x80).val = 0x80 from rfl)]
  | call a =>
    have ha : a.length = 20 := hv a rfl
    have henc : encodeTxKind (.call a) = mkByte 0x94 :: a := by
      have h1 : encodeString a = encodeHeader ⟨false, a.length⟩ ++ a := by
        match a, ha with
        | b :: c :: t, _ => rfl
      have h2 : encodeHeader ⟨false, a.length⟩ = [mkByte 0x94] := by
        rw [ha, encodeHeader]
        norm_num
      rw [encodeTxKind, h1, h2, List.singleton_append]
    have hfb : decodeFixedBytes 20 (encodeString a ++ rest) = .ok (a, rest) :=
      decodeFixedBytes_encodeString 20 a rest ha (by rw [ha]; norm_num)
    have hlist : encodeTxKind (.call a) ++ rest = mkByte 0x94 :: (a ++ rest) := by
      rw [henc]; rfl
    rw [hlist, decodeTxKind]
    rw [if_neg (by decide : ¬ (mkByte 0x94).val = 0x80)]
    have : encodeString a ++ rest = mkByte 0x94 :: (a ++ rest) := by
      have := congrArg (· ++ rest) henc
      simpa [encodeTxKind] using this
    rw [← this, hfb]

theorem decode_u128_some (m : Nat) (rest : List Byte) (h0 : m ≠ 0) (hm : m < 2 ^ 128) :
    decode_u128_from_rlp (encodeUint m ++ rest) = .ok (some m, rest) := by
  have hbl : byteLen m ≤ 16 := (byteLen_le_iff m 16).mpr (by
    have : (256 : Nat) ^ 16 = 2 ^ 128 := by norm_num
    omega)
  obtain ⟨b, t, henc, hb⟩ := encodeUint_head_ne_empty_string m h0 (by omega)
  have hu : decodeUint 16 (encodeUint m ++ rest) = .ok (m, rest) :=
    decodeUint_encodeUint 16 m rest (by
      have : (256 : Nat) ^ 16 = 2 ^ 128 := by norm_num
      omega) (by norm_num)
  have hsplit : encodeUint m ++ rest = b :: (t ++ rest) := by
    rw [henc]; rfl
  rw [hsplit, decode_u128_from_rlp, if_neg hb, ← hsplit, hu]

theorem decode_u128_none (rest : List Byte) :
    decode_u128_from_rlp ([mkByte 0x80] ++ rest) = .ok (none, rest) := by
  rw [List.singleton_append, decode_u128_from_rlp]
  rw [if_pos (show (mkByte 0x80).val = 0x80 from rfl)]

theorem decode_u128_opt (o : Option Nat) (rest : List Byte)
    (hb : ∀ m, o = some m → m < 2 ^ 128) (h0 : o ≠ some 0) :
    decode_u128_from_rlp (encodeOptU128 o ++ rest) = .ok (o, rest) := by
  cases o with
  | none => exact decode_u128_none rest
  | some m =>
    exact decode_u128_some m rest (fun hc => h0 (by rw [hc])) (hb m rfl)

theorem encodeUint_ne_nil (n : Nat) : encodeUint n ≠ [] := by
  rw [encodeUint]
  by_cases h0 : n = 0
  · simp [h0]
  · by_cases hs : n < 0x80 <;> simp [h0, hs]

theorem decode_optional_u128_opt (o : Option Nat)
    (hb : ∀ m, o = some m → m < 2 ^ 128) (h0 : o ≠ some 0) :
    decode_optional_u128_from_rlp (encodeOptTail o) = .ok (o, []) := by
  cases o with
  | none => rfl
  | some m =>
    have hne : (encodeOptTail (some m)).isEmpty = false := by
      rw [encodeOptTail]
      cases henc : encodeUint m with
      | nil => exact absurd henc (encodeUint_ne_nil m)
      | cons a t => rfl
    rw [decode_optional_u128_from_rlp, hne]
    simp only [Bool.false_eq_true, if_false]
    have h := decode_u128_some m [] (fun hc => h0 (by rw [hc])) (hb m rfl)
    rw [encodeOptTail]
    simpa using h

theorem rlp_decode_fields_roundtrip (tx : TxDeposit) (hv : ValidTx tx)
    (hm0 : tx.mint ≠ some 0) (he0 : tx.eth_value ≠ some 0)
    (ht0 : tx.eth_tx_value ≠ some 0) :
    TxDeposit.rlp_decode_fields tx.rlp_encode_fields = .ok (tx, []) := by
  obtain ⟨sh, fr, k, mint, value, gas, sys, ev, inp, etv⟩ := tx
  obtain ⟨hsh, hfr, hk, hmint, hval, hgas, hev, hinp, hetv⟩ := hv
  simp only at hsh hfr hk hmint hval hgas hev hinp hetv hm0 he0 ht0
  have pow32 : (2 : Nat) ^ 256 = 256 ^ 32 := by norm_num
  have pow8 : (2 : Nat) ^ 64 = 256 ^ 8 := by norm_num
  have h10 := decode_optional_u128_opt etv hetv ht0
  have h9 := decodeString_encodeString inp (encodeOptTail etv)
    (lt_trans hinp (by norm_num))
  have h8 := decode_u128_opt ev
    (encodeString inp ++ encodeOptTail etv) hev he0
  have h7 := decodeBool_encodeBool sys
    (encodeOptU128 ev ++ (encodeString inp ++ encodeOptTail etv))
  have h6 := decodeUint_encodeUint 8 gas
    (encodeBool sys ++ (encodeOptU128 ev ++ (encodeString inp ++ encodeOptTail etv)))
    (pow8 ▸ hgas) (by norm_num)
  have h5 := decodeUint_encodeUint 32 value
    (encodeUint gas ++
     (encodeBool sys ++ (encodeOptU128 ev ++ (encodeString inp ++ encodeOptTail etv))))
    (pow32 ▸ hval) (by norm_num)
  have h4 := decode_u128_opt mint
    (encodeUint value ++
     (encodeUint gas ++
      (encodeBool sys ++ (encodeOptU128 ev ++ (encodeString inp ++ encodeOptTail etv)))))
    hmint hm0
  have h3 := decodeTxKind_encodeTxKind k
    (encodeOptU128 mint ++
     (encodeUint value ++
      (encodeUint gas ++
       (encodeBool sys ++ (encodeOptU128 ev ++ (encodeString inp ++ encodeOptTail etv))))))
    hk
  have h2 := decodeFixedBytes_encodeString 20 fr
    (encodeTxKind k ++
     (encodeOptU128 mint ++
      (encodeUint value ++
       (encodeUint gas ++
        (encodeBool sys ++ (encodeOptU128 ev ++ (encodeString inp ++ encodeOptTail etv)))))))
    hfr (by rw [hfr]; norm_num)
  have h1 := decodeFixedBytes_encodeString 32 sh
    (encodeString fr ++
     (encodeTxKind k ++
      (encodeOptU128 mint ++
       (encodeUint value ++
        (encodeUint gas ++
         (encodeBool sys ++ (encodeOptU128 ev ++ (encodeString inp ++ encodeOptTail etv))))))))
    hsh (by rw [hsh]; norm_num)
  simp only [TxDeposit.rlp_encode_fields, List.append_assoc]
  simp only [TxDeposit.rlp_decode_fields, h1, h2, h3, h4, h5, h6, h7, h8, h9, h10]

theorem encodeHeader_length (b : Bool) (n : Nat) :
    (encodeHeader ⟨b, n⟩).length = if n < 56 then 1 else 1 + byteLen n := by
  by_cases h : n < 56
  · simp [encodeHeader, h, beMin_length]
  · simp [encodeHeader, h, beMin_length]
    omega

theorem encodeUint_length_le (n : Nat) : (encodeUint n).length ≤ 1 + byteLen n := by
  by_cases h0 : n = 0
  · simp [encodeUint, h0]
  · by_cases hs : n < 0x80
    · simp [encodeUint, h0, hs]
    · simp [encodeUint, h0, hs, beMin_length]
      omega

theorem encodeString_length_le (l : List Byte) (hw : l.length < 2 ^ 64) :
    (encodeString l).length ≤ l.length + 9 := by
  have hbl : byteLen l.length ≤ 8 := (byteLen_le_iff _ 8).mpr (by
    have : (256 : Nat) ^ 8 = 2 ^ 64 := by norm_num
    omega)
  match l with
  | [] => simp [encodeString, encodeHeader]
  | [b] =>
    by_cases hb : b.val ≥ 0x80 <;> simp [encodeString, hb, encodeHeader]
  | a :: b :: t =>
    have h0 : encodeString (a :: b :: t) =
        encodeHeader ⟨false, (a :: b :: t).length⟩ ++ (a :: b :: t) := rfl
    rw [h0, List.length_append, encodeHeader_length]
    by_cases h : (a :: b :: t).length < 56
    · rw [if_pos h]; omega
    · rw [if_neg h]; omega

theorem encodeString_length_fixed (l : List Byte) (n : Nat)
    (hl : l.length = n) (h2 : 2 ≤ n) (h56 : n < 56) :
    (encodeString l).length = n + 1 := by
  match l, hl with
  | [], hl => simp at hl; omega
  | [a], hl => simp at hl; omega
  | a :: b :: t, hl =>
    have h0 : encodeString (a :: b :: t) =
        encodeHeader ⟨false, (a :: b :: t).length⟩ ++ (a :: b :: t) := rfl
    rw [h0, List.length_append, encodeHeader_length, hl, if_pos h56]
    omega

theorem encodeTxKind_length_le (k : TxKind) (hk : ∀ a, k = .call a → a.length = 20) :
    (encodeTxKind k).length ≤ 21 := by
  cases k with
  | create => simp [encodeTxKind]
  | call a =>
    have ha := hk a rfl
    rw [encodeTxKind, encodeString_length_fixed a 20 ha (by norm_num) (by norm_num)]

theorem encodeOptU128_length_le (o : Option Nat)
    (hb : ∀ m, o = some m → m < 2 ^ 128) : (encodeOptU128 o).length ≤ 17 := by
  cases o with
  | none => simp [encodeOptU128]
  | some m =>
    have hbl : byteLen m ≤ 16 := (byteLen_le_iff m 16).mpr (by
      have h1 : (256 : Nat) ^ 16 = 2 ^ 128 := by norm_num
      have := hb m rfl
      omega)
    have := encodeUint_length_le m
    rw [encodeOptU128]
    omega

theorem encodeOptTail_length_le (o : Option Nat)
    (hb : ∀ m, o = some m → m < 2 ^ 128) : (encodeOptTail o).length ≤ 17 := by
  cases o with
  | none => simp [encodeOptTail]
  | some m =>
    have hbl : byteLen m ≤ 16 := (byteLen_le_iff m 16).mpr (by
      have h1 : (256 : Nat) ^ 16 = 2 ^ 128 := by norm_num
      have := hb m rfl
      omega)
    have := encodeUint_length_le m
    rw [encodeOptTail]
    omega

theorem encodeUint_length_le_of_lt (n w : Nat) (h : n < 256 ^ w) :
    (encodeUint n).length ≤ 1 + w := by
  have := encodeUint_length_le n
  have := (byteLen_le_iff n w).mpr h
  omega

theorem rlp_encode_fields_length_eq (tx : TxDeposit) :
    tx.rlp_encode_fields.length = tx.rlp_encoded_fields_length := by
  simp [TxDeposit.rlp_encode_fields, TxDeposit.rlp_encoded_fields_length,
    List.length_append]
  omega

theorem rlp_encode_fields_length_lb (tx : TxDeposit) (hsh : tx.source_hash.length = 32) :
    33 ≤ tx.rlp_encode_fields.length := by
  have h1 : (encodeString tx.source_hash).length = 33 :=
    encodeString_length_fixed _ 32 hsh (by norm_num) (by norm_num)
  rw [TxDeposit.rlp_encode_fields]
  simp [List.length_append, h1]

theorem rlp_encode_fields_length_ub (tx : TxDeposit) (hv : ValidTx tx) :
    tx.rlp_encode_fields.length < 2 ^ 64 := by
  obtain ⟨hsh, hfr, hk, hmint, hval, hgas, hev, hinp, hetv⟩ := hv
  have p1 : (encodeString tx.source_hash).length = 33 :=
    encodeString_length_fixed _ 32 hsh (by norm_num) (by norm_num)
  have p2 : (encodeString tx.from_).length = 21 :=
    encodeString_length_fixed _ 20 hfr (by norm_num) (by norm_num)
  have p3 := encodeTxKind_length_le tx.to_ hk
  have p4 := encodeOptU128_length_le tx.mint hmint
  have p5 : (encodeUint tx.value).length ≤ 33 := by
    have := encodeUint_length_le_of_lt tx.value 32 (by
      have : (256 : Nat) ^ 32 = 2 ^ 256 := by norm_num
      omega)
    omega
  have p6 : (encodeUint tx.gas_limit).length ≤ 9 := by
    have := encodeUint_length_le_of_lt tx.gas_limit 8 (by
      have : (256 : Nat) ^ 8 = 2 ^ 64 := by norm_num
      omega)
    omega
  have p7 : (encodeBool tx.is_system_transaction).length ≤ 1 := by
    cases tx.is_system_transaction <;> simp [encodeBool]
  have p8 := encodeOptU128_length_le tx.eth_value hev
  have p9 : (encodeString tx.input).length ≤ tx.input.length + 9 :=
    encodeString_length_le tx.input (lt_trans hinp (by norm_num))
  have p10 := encodeOptTail_length_le tx.eth_tx_value hetv
  have h63 : (2 : Nat) ^ 63 = 9223372036854775808 := by norm_num
  have h64 : (2 : Nat) ^ 64 = 18446744073709551616 := by norm_num
  rw [h63] at hinp
  rw [TxDeposit.rlp_encode_fields]
  simp only [List.length_append]
  omega

theorem rlp_decode_rlp_encode (tx : TxDeposit) (hv : ValidTx tx)
    (hm0 : tx.mint ≠ some 0) (he0 : tx.eth_value ≠ some 0)
    (ht0 : tx.eth_tx_value ≠ some 0) :
    TxDeposit.rlp_decode tx.rlp_encode = .ok (tx, []) := by
  have hlen := rlp_encode_fields_length_eq tx
  have hlb := rlp_encode_fields_length_lb tx hv.1
  have hub := rlp_encode_fields_length_ub tx hv
  have hfields := rlp_decode_fields_roundtrip tx hv hm0 he0 ht0
  have hh : decodeHeader (encodeHeader ⟨true, tx.rlp_encode_fields.length⟩ ++
      tx.rlp_encode_fields ++ []) =
      .ok (⟨true, tx.rlp_encode_fields.length⟩, tx.rlp_encode_fields ++ []) := by
    by_cases hshort : tx.rlp_encode_fields.length < 56
    · exact decodeHeader_short true _ [] hshort (Or.inl rfl)
    · exact decodeHeader_long true _ [] (by omega) hub
  rw [List.append_nil, List.append_nil] at hh
  have henc : tx.rlp_encode =
      encodeHeader ⟨true, tx.rlp_encode_fields.length⟩ ++ tx.rlp_encode_fields := by
    rw [TxDeposit.rlp_encode, hlen]
  rw [TxDeposit.rlp_decode, henc, hh]
  simp only [Bool.not_true, Bool.false_eq_true, if_false, gt_iff_lt, Nat.lt_irrefl,
    hfields]
  simp

/-- Decidable equality for `Except` results, for evaluating concrete
decodes. -/
instance {e a : Type} [DecidableEq e] [DecidableEq a] :
    DecidableEq (Except e a) := fun x y =>
  match x, y with
  | .error u, .error v =>
    if h : u = v then isTrue (by rw [h])
    else isFalse (fun hc => by cases hc; exact h rfl)
  | .ok u, .ok v =>
    if h : u = v then isTrue (by rw [h])
    else isFalse (fun hc => by cases hc; exact h rfl)
  | .error _, .ok _ => isFalse (fun hc => Except.noConfusion hc)
  | .ok _, .error _ => isFalse (fun hc => Except.noConfusion hc)

/-! ### C1 -/

/-- C1 counterexample: the deposit transaction whose fields are all zero and
whose `mint` is `Some(0)` is valid, yet RLP-decoding its RLP encoding yields
`mint = None`: the round trip `rlp_decode (rlp_encode tx) = Ok(tx)` fails at
this input, refuting the claim's quantifier over optional fields `Some(0)`. -/
theorem c1_roundtrip_counterexample :
    ValidTx ⟨List.replicate 32 0, List.replicate 20 0, .create, some 0, 0, 0,
      false, none, [], none⟩ ∧
    TxDeposit.rlp_decode
      (TxDeposit.rlp_encode ⟨List.replicate 32 0, List.replicate 20 0, .create,
        some 0, 0, 0, false, none, [], none⟩) =
      .ok (⟨List.replicate 32 0, List.replicate 20 0, .create, none, 0, 0,
        false, none, [], none⟩, []) ∧
    TxDeposit.rlp_decode
      (TxDeposit.rlp_encode ⟨List.replicate 32 0, List.replicate 20 0, .create,
        some 0, 0, 0, false, none, [], none⟩) ≠
      .ok (⟨List.replicate 32 0, List.replicate 20 0, .create, some 0, 0, 0,
        false, none, [], none⟩, []) := by
  refine ⟨⟨by decide, by decide, ?_, ?_, by decide, by decide, ?_, by decide, ?_⟩,
    by decide, by decide⟩
  · intro a h; cases h
  · intro m h; cases h; decide
  · intro v h; cases h
  · intro v h; cases h

/-- C1 (corrected): for every valid `TxDeposit` whose optional `mint`,
`eth_value` and `eth_tx_value` fields are not `Some(0)`, RLP-decoding the RLP
encoding returns the transaction exactly (consuming the whole buffer).  A
`Some(0)` optional field encodes as the RLP empty string, which decodes back
as `None`, so such values are excluded. -/
theorem c1_txdeposit_rlp_roundtrip (tx : TxDeposit) (hv : ValidTx tx)
    (hm0 : tx.mint ≠ some 0) (he0 : tx.eth_value ≠ some 0)
    (ht0 : tx.eth_tx_value ≠ some 0) :
    TxDeposit.rlp_decode tx.rlp_encode = .ok (tx, []) :=
  rlp_decode_rlp_encode tx hv hm0 he0 ht0

/-- Witness for C1: the round-trip theorem applied at a concrete valid
deposit transaction with all optional fields present and non-zero. -/
theorem c1_txdeposit_rlp_roundtrip_witness :
    TxDeposit.rlp_decode
      (TxDeposit.rlp_encode ⟨List.replicate 32 2, List.replicate 20 3,
        .call (List.replicate 20 1), some 5, 1000, 50000, true, some 300,
        [1, 2, 3], some 7⟩) =
      .ok (⟨List.replicate 32 2, List.replicate 20 3, .call (List.replicate 20 1),
        some 5, 1000, 50000, true, some 300, [1, 2, 3], some 7⟩, []) :=
  c1_txdeposit_rlp_roundtrip
    ⟨List.replicate 32 2, List.replicate 20 3, .call (List.replicate 20 1),
      some 5, 1000, 50000, true, some 300, [1, 2, 3], some 7⟩
    ⟨by decide, by decide,
     fun a h => by cases h; decide,
     fun m h => by cases h; decide,
     by decide, by decide,
     fun v h => by cases h; decide,
     by decide,
     fun v h => by cases h; decide⟩
    (by decide) (by decide) (by decide)

/-! ## Deposit source hashes (crates/protocol/src/deposits.rs)

The Rust builds the two 64-byte hash inputs by writing into a zeroed
`[u8; 64]` buffer with `copy_from_slice`; `setRange` embeds that write. -/

/-- Overwrite `v.length` bytes of `l` starting at `start`
(`copy_from_slice` into a slice of an array). -/
def setRange (l : List Byte) (start : Nat) (v : List Byte) : List Byte :=
  l.take start ++ v ++ l.drop (start + v.length)

/-- `DepositSourceDomainIdentifier` discriminant values. -/
def userDomainId : Nat := 0
def l1InfoDomainId : Nat := 1
def upgradeDomainId : Nat := 2

/-- `UserDepositSource::source_hash`.  `l1_block_hash` is the 32-byte block
hash, `log_index` the `u64` log index. -/
def userSourceHash (l1_block_hash : List Byte) (log_index : Nat) : List Byte :=
  let input := setRange (setRange (List.replicate 64 0) 0 l1_block_hash)
    (32 * 2 - 8) (beBytes 8 log_index)
  let deposit_id_hash := keccak256 input
  let domain_input := setRange (setRange (List.replicate 64 0)
    (32 - 8) (beBytes 8 userDomainId)) 32 deposit_id_hash
  keccak256 domain_input

/-- `L1InfoDepositSource::source_hash`. -/
def l1InfoSourceHash (l1_block_hash : List Byte) (seq_number : Nat) : List Byte :=
  let input := setRange (setRange (List.replicate 64 0) 0 l1_block_hash)
    (32 * 2 - 8) (beBytes 8 seq_number)
  let deposit_id_hash := keccak256 input
  let domain_input := setRange (setRange (List.replicate 64 0)
    (32 - 8) (beBytes 8 l1InfoDomainId)) 32 deposit_id_hash
  keccak256 domain_input

/-- `UpgradeDepositSource::source_hash`; `intent` is the UTF-8 byte string of
the intent. -/
def upgradeSourceHash (intent : List Byte) : List Byte :=
  let intent_hash := keccak256 intent
  let domain_input := setRange (setRange (List.replicate 64 0)
    (32 - 8) (beBytes 8 upgradeDomainId)) 32 intent_hash
  keccak256 domain_input

theorem setRange_zero (l v : List Byte) :
    setRange l 0 v = v ++ l.drop v.length := by
  simp [setRange]

theorem replicate_drop (n m : Nat) :
    (List.replicate n (0 : Byte)).drop m = List.replicate (n - m) 0 := by
  simp

theorem replicate_take (n m : Nat) :
    (List.replicate n (0 : Byte)).take m = List.replicate (min m n) 0 := by
  simp

/-- The two `copy_from_slice` writes of the inner hash input produce the
concatenation `l1_block_hash ++ zeros24 ++ be8(idx)`. -/
theorem sourceHash_inner_input (h : List Byte) (idx : Nat) (hh : h.length = 32) :
    setRange (setRange (List.replicate 64 0) 0 h) (32 * 2 - 8) (beBytes 8 idx) =
      h ++ List.replicate 24 0 ++ beBytes 8 idx := by
  have h1 : setRange (List.replicate 64 0) 0 h = h ++ List.replicate 32 0 := by
    rw [setRange]
    simp [hh, replicate_drop]
  rw [h1, setRange]
  have hlen : (h ++ List.replicate 32 0).length = 64 := by simp [hh]
  have htake : (h ++ List.replicate 32 0).take 56 = h ++ List.replicate 24 0 := by
    have h56 : 56 = h.length + 24 := by omega
    rw [h56, List.take_append]
    simp [replicate_take]
  have hdrop : (h ++ List.replicate 32 0).drop 64 = [] := by
    apply List.drop_eq_nil_of_le
    omega
  have hstart : 32 * 2 - 8 = 56 := by norm_num
  rw [hstart]
  rw [show 56 + (beBytes 8 idx).length = 64 by simp [beBytes_length]]
  rw [htake, hdrop, List.append_nil, List.append_assoc]

/-- The two `copy_from_slice` writes of the outer domain input produce the
concatenation `zeros24 ++ be8(domain) ++ inner`. -/
theorem sourceHash_domain_input (d : Nat) (inner : List Byte)
    (hi : inner.length = 32) :
    setRange (setRange (List.replicate 64 0) (32 - 8) (beBytes 8 d)) 32 inner =
      List.replicate 24 0 ++ beBytes 8 d ++ inner := by
  have h1 : setRange (List.replicate 64 0) (32 - 8) (beBytes 8 d) =
      List.replicate 24 0 ++ beBytes 8 d ++ List.replicate 32 0 := by
    rw [setRange]
    rw [show (32 : Nat) - 8 = 24 by norm_num]
    rw [show 24 + (beBytes 8 d).length = 32 by simp [beBytes_length]]
    simp [replicate_take, replicate_drop]
  rw [h1, setRange]
  have htake : (List.replicate 24 0 ++ beBytes 8 d ++ List.replicate 32 0).take 32 =
      List.replicate 24 0 ++ beBytes 8 d := by
    rw [List.append_assoc]
    have h32 : (32 : Nat) = (List.replicate 24 (0 : Byte)).length + 8 := by simp
    rw [h32, List.take_append]
    rw [List.take_append_of_le_length (by simp [beBytes_length])]
    rw [List.take_of_length_le (by simp [beBytes_length])]
  have hdrop : (List.replicate 24 0 ++ beBytes 8 d ++ List.replicate 32 0).drop
      (32 + inner.length) = [] := by
    apply List.drop_eq_nil_of_le
    simp [beBytes_length, hi]
  rw [htake, hdrop, List.append_nil]

theorem leBytes_length (w n : Nat) : (leBytes w n).length = w := by
  induction w generalizing n with
  | zero => rfl
  | succ w ih => simp [leBytes, ih]

theorem keccak256_length (msg : List Byte) : (keccak256 msg).length = 32 := by
  simp [keccak256, leBytes_length]

/-! ### C2 -/

/-- C2: the three deposit source hashes equal the spec's formulas.
`UserDepositSource::source_hash h i` is
`keccak256(zeros24 ++ be8(0) ++ keccak256(h ++ zeros24 ++ be8(i)))`;
`L1InfoDepositSource::source_hash` is the same shape with domain id 1; and
`UpgradeDepositSource::source_hash intent` is
`keccak256(zeros24 ++ be8(2) ++ keccak256(intent))`.  All three are total
Lean functions, so no failure mode exists. -/
theorem c2_source_hash_spec (h : List Byte) (i : Nat) (intent : List Byte)
    (hh : h.length = 32) :
    userSourceHash h i =
      keccak256 (List.replicate 24 0 ++ beBytes 8 0 ++
        keccak256 (h ++ List.replicate 24 0 ++ beBytes 8 i)) ∧
    l1InfoSourceHash h i =
      keccak256 (List.replicate 24 0 ++ beBytes 8 1 ++
        keccak256 (h ++ List.replicate 24 0 ++ beBytes 8 i)) ∧
    upgradeSourceHash intent =
      keccak256 (List.replicate 24 0 ++ beBytes 8 2 ++ keccak256 intent) := by
  have hinner := sourceHash_inner_input h i hh
  refine ⟨?_, ?_, ?_⟩
  · rw [userSourceHash, hinner,
      sourceHash_domain_input userDomainId _ (keccak256_length _)]
    rfl
  · rw [l1InfoSourceHash, hinner,
      sourceHash_domain_input l1InfoDomainId _ (keccak256_length _)]
    rfl
  · rw [upgradeSourceHash,
      sourceHash_domain_input upgradeDomainId _ (keccak256_length _)]
    rfl

/-- Witness for C2: the source-hash formulas at the zero block hash, log
index zero and the empty intent. -/
theorem c2_source_hash_spec_witness :
    userSourceHash (List.replicate 32 0) 0 =
      keccak256 (List.replicate 24 0 ++ beBytes 8 0 ++
        keccak256 (List.replicate 32 0 ++ List.replicate 24 0 ++ beBytes 8 0)) ∧
    l1InfoSourceHash (List.replicate 32 0) 0 =
      keccak256 (List.replicate 24 0 ++ beBytes 8 1 ++
        keccak256 (List.replicate 32 0 ++ List.replicate 24 0 ++ beBytes 8 0)) ∧
    upgradeSourceHash [] =
      keccak256 (List.replicate 24 0 ++ beBytes 8 2 ++ keccak256 []) :=
  c2_source_hash_spec (List.replicate 32 0) 0 [] (by decide)

/-! ## L1 block info transactions (crates/protocol/src/block_info.rs) -/

/-- Slice `r[a..b]` of a byte buffer. -/
def slice (r : List Byte) (a b : Nat) : List Byte := (r.drop a).take (b - a)

/-- The system transaction gas limit post-Regolith. -/
def REGOLITH_SYSTEM_TX_GAS : Nat := 1000000

/-- The length of an L1 info transaction in Bedrock (4 + 32 * 8). -/
def L1_INFO_TX_LEN_BEDROCK : Nat := 4 + 32 * 8

/-- The length of an L1 info transaction in Ecotone (4 + 32 * 5). -/
def L1_INFO_TX_LEN_ECOTONE : Nat := 4 + 32 * 5

/-- The 4 byte selector of `setL1BlockValues(...)`. -/
def L1_INFO_TX_SELECTOR_BEDROCK : List Byte := [0x01, 0x5d, 0x8e, 0xb9]

/-- The 4 byte selector of `setL1BlockValuesEcotone()`. -/
def L1_INFO_TX_SELECTOR_ECOTONE : List Byte := [0x44, 0x0a, 0x5e, 0x20]

/-- The address of the L1 Block contract
(0x4200000000000000000000000000000000000015). -/
def L1_BLOCK_ADDRESS : List Byte :=
  [0x42, 0, 0, 0, 0, 0, 0, 0, 0, 0, 0, 0, 0, 0, 0, 0, 0, 0, 0, 0x15]

/-- The depositor address of the L1 info transaction
(0xdeaddeaddeaddeaddeaddeaddeaddeaddead0001). -/
def L1_INFO_DEPOSITOR_ADDRESS : List Byte :=
  [0xde, 0xad, 0xde, 0xad, 0xde, 0xad, 0xde, 0xad, 0xde, 0xad,
   0xde, 0xad, 0xde, 0xad, 0xde, 0xad, 0xde, 0xad, 0x00, 0x01]

/-- `L1BlockInfoBedrock`. -/
structure L1BlockInfoBedrock where
  number : Nat
  time : Nat
  base_fee : Nat
  block_hash : List Byte
  sequence_number : Nat
  batcher_address : List Byte
  l1_fee_overhead : Nat
  l1_fee_scalar : Nat
deriving DecidableEq, Repr

/-- `L1BlockInfoEcotone`. -/
structure L1BlockInfoEcotone where
  number : Nat
  time : Nat
  base_fee : Nat
  block_hash : List Byte
  sequence_number : Nat
  batcher_address : List Byte
  blob_base_fee : Nat
  blob_base_fee_scalar : Nat
  base_fee_scalar : Nat
deriving DecidableEq, Repr

/-- `L1BlockInfoTx`. -/
inductive L1BlockInfoTx where
  | bedrock (tx : L1BlockInfoBedrock)
  | ecotone (tx : L1BlockInfoEcotone)
deriving DecidableEq, Repr

/-- `block_info.rs`'s `DecodeError`.  The Rust `InvalidLength(String)` carries
a message formatted from the expected and actual lengths; the model carries
that pair directly. -/
inductive DecodeError where
  | invalidSelector
  | parseErr
  | invalidLength (expected actual : Nat)
deriving DecidableEq, Repr

/-- `L1BlockInfoBedrock::encode_calldata`.  `U256::from(v).to_be_bytes::<32>`
is `beBytes 32 v`; `Address::into_word` left-pads the 20-byte address with
12 zero bytes. -/
def L1BlockInfoBedrock.encode_calldata (x : L1BlockInfoBedrock) : List Byte :=
  L1_INFO_TX_SELECTOR_BEDROCK ++
  beBytes 32 x.number ++
  beBytes 32 x.time ++
  beBytes 32 x.base_fee ++
  x.block_hash ++
  beBytes 32 x.sequence_number ++
  (List.replicate 12 0 ++ x.batcher_address) ++
  beBytes 32 x.l1_fee_overhead ++
  beBytes 32 x.l1_fee_scalar

/-- `L1BlockInfoBedrock::decode_calldata`. -/
def L1BlockInfoBedrock.decode_calldata (r : List Byte) :
    Except DecodeError L1BlockInfoBedrock :=
  if r.length ≠ L1_INFO_TX_LEN_BEDROCK then
    .error (.invalidLength L1_INFO_TX_LEN_BEDROCK r.length)
  else
    .ok { number := fromBe (slice r 28 36)
          time := fromBe (slice r 60 68)
          base_fee := fromBe (slice r 92 100)
          block_hash := slice r 100 132
          sequence_number := fromBe (slice r 156 164)
          batcher_address := slice r 176 196
          l1_fee_overhead := fromBe (slice r 196 228)
          l1_fee_scalar := fromBe (slice r 228 260) }

/-- `L1BlockInfoEcotone::encode_calldata`. -/
def L1BlockInfoEcotone.encode_calldata (x : L1BlockInfoEcotone) : List Byte :=
  L1_INFO_TX_SELECTOR_ECOTONE ++
  beBytes 4 x.base_fee_scalar ++
  beBytes 4 x.blob_base_fee_scalar ++
  beBytes 8 x.sequence_number ++
  beBytes 8 x.time ++
  beBytes 8 x.number ++
  beBytes 32 x.base_fee ++
  beBytes 32 x.blob_base_fee ++
  x.block_hash ++
  (List.replicate 12 0 ++ x.batcher_address)

/-- `L1BlockInfoEcotone::decode_calldata`. -/
def L1BlockInfoEcotone.decode_calldata (r : List Byte) :
    Except DecodeError L1BlockInfoEcotone :=
  if r.length ≠ L1_INFO_TX_LEN_ECOTONE then
    .error (.invalidLength L1_INFO_TX_LEN_ECOTONE r.length)
  else
    .ok { base_fee_scalar := fromBe (slice r 4 8)
          blob_base_fee_scalar := fromBe (slice r 8 12)
          sequence_number := fromBe (slice r 12 20)
          time := fromBe (slice r 20 28)
          number := fromBe (slice r 28 36)
          base_fee := fromBe (slice r 60 68)
          blob_base_fee := fromBe (slice r 84 100)
          block_hash := slice r 100 132
          batcher_address := slice r 144 164 }

/-- `L1BlockInfoTx::encode_calldata`. -/
def L1BlockInfoTx.encode_calldata : L1BlockInfoTx → List Byte
  | .bedrock tx => tx.encode_calldata
  | .ecotone tx => tx.encode_calldata

/-- `L1BlockInfoTx::block_hash`. -/
def L1BlockInfoTx.block_hash : L1BlockInfoTx → List Byte
  | .bedrock tx => tx.block_hash
  | .ecotone tx => tx.block_hash

/-! ### C4 -/

/-- C4: any input whose length is not exactly 260 bytes is rejected by
`L1BlockInfoBedrock::decode_calldata` with `InvalidLength` carrying the
expected (260) and actual lengths, and any input whose length is not exactly
164 bytes is rejected by `L1BlockInfoEcotone::decode_calldata` with
`InvalidLength` carrying 164 and the actual length; neither returns a struct
for a wrong-length input. -/
theorem c4_invalid_length (r : List Byte) :
    (r.length ≠ 260 →
      L1BlockInfoBedrock.decode_calldata r = .error (.invalidLength 260 r.length)) ∧
    (r.length ≠ 164 →
      L1BlockInfoEcotone.decode_calldata r = .error (.invalidLength 164 r.length)) := by
  constructor
  · intro h
    rw [L1BlockInfoBedrock.decode_calldata, if_pos (by simpa [L1_INFO_TX_LEN_BEDROCK] using h)]
    rfl
  · intro h
    rw [L1BlockInfoEcotone.decode_calldata, if_pos (by simpa [L1_INFO_TX_LEN_ECOTONE] using h)]
    rfl

/-- Witness for C4: the empty buffer is rejected by both decoders with the
expected/actual pair in the error. -/
theorem c4_invalid_length_witness :
    L1BlockInfoBedrock.decode_calldata [] = .error (.invalidLength 260 0) ∧
    L1BlockInfoEcotone.decode_calldata [] = .error (.invalidLength 164 0) :=
  ⟨(c4_invalid_length []).1 (by decide), (c4_invalid_length []).2 (by decide)⟩

/-! ### C5 -/

theorem slice_length (r : List Byte) (a b : Nat) (hb : b ≤ r.length) (hab : a ≤ b) :
    (slice r a b).length = b - a := by
  simp [slice, List.length_take, List.length_drop]
  omega

theorem slice_append (r : List Byte) (a b c : Nat) (h1 : a ≤ b) (h2 : b ≤ c) :
    slice r a b ++ slice r b c = slice r a c := by
  rw [slice, slice, slice]
  have hd : r.drop b = (r.drop a).drop (b - a) := by
    rw [List.drop_drop]
    congr 1
    omega
  rw [hd]
  have hc : c - a = (b - a) + (c - b) := by omega
  rw [hc, List.take_add]

theorem slice_all (r : List Byte) (n : Nat) (h : r.length ≤ n) :
    slice r 0 n = r := by
  simp [slice]
  exact h

theorem beBytes_split_zero (w1 w2 x : Nat) (h : x < 256 ^ w2) :
    beBytes (w1 + w2) x = List.replicate w1 0 ++ beBytes w2 x := by
  rw [beBytes_add, Nat.div_eq_of_lt h, beBytes_zero]

theorem beBytes32_of_u64 (x : Nat) (h : x < 256 ^ 8) :
    beBytes 32 x = List.replicate 24 0 ++ beBytes 8 x :=
  beBytes_split_zero 24 8 x h

theorem beBytes32_of_u128 (x : Nat) (h : x < 256 ^ 16) :
    beBytes 32 x = List.replicate 16 0 ++ beBytes 16 x :=
  beBytes_split_zero 16 16 x h

/-- Re-encoding a decoded 8-byte numeric slice reproduces the 32-byte word
when the word's padding bytes (slice `a..b-8`) are zero. -/
theorem word_roundtrip_u64 (r : List Byte) (a b : Nat)
    (hlen : b ≤ r.length) (hab : a + 32 = b)
    (hp : slice r a (b - 8) = List.replicate 24 0) :
    beBytes 32 (fromBe (slice r (b - 8) b)) = slice r a b := by
  have hsl : (slice r (b - 8) b).length = 8 := by
    rw [slice_length r _ _ hlen (by omega)]
    omega
  have hlt : fromBe (slice r (b - 8) b) < 256 ^ 8 := by
    have := fromBe_lt (slice r (b - 8) b)
    rw [hsl] at this
    exact this
  rw [beBytes32_of_u64 _ hlt, beBytes_fromBe_of_length _ 8 hsl, ← hp,
    slice_append r a (b - 8) b (by omega) (by omega)]

set_option maxRecDepth 40000 in
/-- C5 counterexample: the 260-byte Bedrock calldata whose ignored padding
byte at offset 4 is one decodes successfully, but re-encoding the decoded
value zeroes that byte, so `encode_calldata (decode_calldata r)` differs
from `r`, refuting the claim's quantifier over non-zero word padding. -/
theorem c5_roundtrip_counterexample :
    L1BlockInfoBedrock.decode_calldata
      (L1_INFO_TX_SELECTOR_BEDROCK ++ 1 :: List.replicate 255 0) =
      .ok ⟨0, 0, 0, List.replicate 32 0, 0, List.replicate 20 0, 0, 0⟩ ∧
    L1BlockInfoBedrock.encode_calldata
      ⟨0, 0, 0, List.replicate 32 0, 0, List.replicate 20 0, 0, 0⟩ ≠
      L1_INFO_TX_SELECTOR_BEDROCK ++ 1 :: List.replicate 255 0 := by
  constructor
  · decide
  · decide

/-- C5 (corrected): for valid-length calldata carrying the variant's
selector whose ignored word-padding bytes are all zero, re-encoding the
decoded value reproduces the input exactly, for both variants.  Calldata
with non-zero padding bytes decodes successfully but does not round-trip,
because encoding re-pads every sub-word field with zeros. -/
theorem c5_encode_decode_calldata (r : List Byte) :
    (r.length = 260 → slice r 0 4 = L1_INFO_TX_SELECTOR_BEDROCK →
     slice r 4 28 = List.replicate 24 0 →
     slice r 36 60 = List.replicate 24 0 →
     slice r 68 92 = List.replicate 24 0 →
     slice r 132 156 = List.replicate 24 0 →
     slice r 164 176 = List.replicate 12 0 →
     ∃ v, L1BlockInfoBedrock.decode_calldata r = .ok v ∧
          L1BlockInfoBedrock.encode_calldata v = r) ∧
    (r.length = 164 → slice r 0 4 = L1_INFO_TX_SELECTOR_ECOTONE →
     slice r 36 60 = List.replicate 24 0 →
     slice r 68 84 = List.replicate 16 0 →
     slice r 132 144 = List.replicate 12 0 →
     ∃ v, L1BlockInfoEcotone.decode_calldata r = .ok v ∧
          L1BlockInfoEcotone.encode_calldata v = r) := by
  constructor
  · intro hlen hsel hp1 hp2 hp3 hp4 hp5
    refine ⟨_, by
      rw [L1BlockInfoBedrock.decode_calldata,
        if_neg (by simp [L1_INFO_TX_LEN_BEDROCK, hlen])], ?_⟩
    rw [L1BlockInfoBedrock.encode_calldata]
    simp only
    have e1 := word_roundtrip_u64 r 4 36 (by omega) (by omega) (by simpa using hp1)
    have e2 := word_roundtrip_u64 r 36 68 (by omega) (by omega) (by simpa using hp2)
    have e3 := word_roundtrip_u64 r 68 100 (by omega) (by omega) (by simpa using hp3)
    have e4 := word_roundtrip_u64 r 132 164 (by omega) (by omega) (by simpa using hp4)
    have e5 : beBytes 32 (fromBe (slice r 196 228)) = slice r 196 228 :=
      beBytes_fromBe_of_length _ 32 (slice_length r 196 228 (by omega) (by omega))
    have e6 : beBytes 32 (fromBe (slice r 228 260)) = slice r 228 260 :=
      beBytes_fromBe_of_length _ 32 (slice_length r 228 260 (by omega) (by omega))
    have e7 : List.replicate 12 (0 : Byte) ++ slice r 176 196 = slice r 164 196 := by
      rw [← hp5]
      exact slice_append r 164 176 196 (by omega) (by omega)
    rw [show (36 : Nat) - 8 = 28 from rfl] at e1
    rw [show (68 : Nat) - 8 = 60 from rfl] at e2
    rw [show (100 : Nat) - 8 = 92 from rfl] at e3
    rw [show (164 : Nat) - 8 = 156 from rfl] at e4
    rw [e1, e2, e3, e4, e5, e6, ← hsel]
    rw [List.append_assoc, List.append_assoc, List.append_assoc, List.append_assoc,
      List.append_assoc, List.append_assoc, List.append_assoc]
    rw [e7]
    rw [slice_append r 196 228 260 (by omega) (by omega)]
    rw [slice_append r 164 196 260 (by omega) (by omega)]
    rw [slice_append r 132 164 260 (by omega) (by omega)]
    rw [slice_append r 100 132 260 (by omega) (by omega)]
    rw [slice_append r 68 100 260 (by omega) (by omega)]
    rw [slice_append r 36 68 260 (by omega) (by omega)]
    rw [slice_append r 4 36 260 (by omega) (by omega)]
    rw [slice_append r 0 4 260 (by omega) (by omega)]
    exact slice_all r 260 (by omega)
  · intro hlen hsel hp1 hp2 hp3
    refine ⟨_, by
      rw [L1BlockInfoEcotone.decode_calldata,
        if_neg (by simp [L1_INFO_TX_LEN_ECOTONE, hlen])], ?_⟩
    rw [L1BlockInfoEcotone.encode_calldata]
    simp only
    have e1 : beBytes 4 (fromBe (slice r 4 8)) = slice r 4 8 :=
      beBytes_fromBe_of_length _ 4 (slice_length r 4 8 (by omega) (by omega))
    have e2 : beBytes 4 (fromBe (slice r 8 12)) = slice r 8 12 :=
      beBytes_fromBe_of_length _ 4 (slice_length r 8 12 (by omega) (by omega))
    have e3 : beBytes 8 (fromBe (slice r 12 20)) = slice r 12 20 :=
      beBytes_fromBe_of_length _ 8 (slice_length r 12 20 (by omega) (by omega))
    have e4 : beBytes 8 (fromBe (slice r 20 28)) = slice r 20 28 :=
      beBytes_fromBe_of_length _ 8 (slice_length r 20 28 (by omega) (by omega))
    have e5 : beBytes 8 (fromBe (slice r 28 36)) = slice r 28 36 :=
      beBytes_fromBe_of_length _ 8 (slice_length r 28 36 (by omega) (by omega))
    have e6 := word_roundtrip_u64 r 36 68 (by omega) (by omega) (by simpa using hp1)
    rw [show (68 : Nat) - 8 = 60 from rfl] at e6
    have hsl16 : (slice r 84 100).length = 16 := slice_length r 84 100 (by omega) (by omega)
    have e7 : beBytes 32 (fromBe (slice r 84 100)) = slice r 68 100 := by
      have hlt : fromBe (slice r 84 100) < 256 ^ 16 := by
        have := fromBe_lt (slice r 84 100)
        rw [hsl16] at this
        exact this
      rw [beBytes32_of_u128 _ hlt, beBytes_fromBe_of_length _ 16 hsl16, ← hp2,
        slice_append r 68 84 100 (by omega) (by omega)]
    have e8 : List.replicate 12 (0 : Byte) ++ slice r 144 164 = slice r 132 164 := by
      rw [← hp3]
      exact slice_append r 132 144 164 (by omega) (by omega)
    rw [e1, e2, e3, e4, e5, e6, e7, ← hsel]
    rw [List.append_assoc, List.append_assoc, List.append_assoc, List.append_assoc,
      List.append_assoc, List.append_assoc, List.append_assoc, List.append_assoc]
    rw [e8]
    rw [slice_append r 100 132 164 (by omega) (by omega)]
    rw [slice_append r 68 100 164 (by omega) (by omega)]
    rw [slice_append r 36 68 164 (by omega) (by omega)]
    rw [slice_append r 28 36 164 (by omega) (by omega)]
    rw [slice_append r 20 28 164 (by omega) (by omega)]
    rw [slice_append r 12 20 164 (by omega) (by omega)]
    rw [slice_append r 8 12 164 (by omega) (by omega)]
    rw [slice_append r 4 8 164 (by omega) (by omega)]
    rw [slice_append r 0 4 164 (by omega) (by omega)]
    exact slice_all r 164 (by omega)

set_option maxRecDepth 40000 in
/-- Witness for C5: both identities evaluated on the all-zero-field
encodings (selector followed by zero words). -/
theorem c5_encode_decode_calldata_witness :
    (∃ v, L1BlockInfoBedrock.decode_calldata
        (L1_INFO_TX_SELECTOR_BEDROCK ++ List.replicate 256 0) = .ok v ∧
      L1BlockInfoBedrock.encode_calldata v =
        L1_INFO_TX_SELECTOR_BEDROCK ++ List.replicate 256 0) ∧
    (∃ v, L1BlockInfoEcotone.decode_calldata
        (L1_INFO_TX_SELECTOR_ECOTONE ++ List.replicate 160 0) = .ok v ∧
      L1BlockInfoEcotone.encode_calldata v =
        L1_INFO_TX_SELECTOR_ECOTONE ++ List.replicate 160 0) :=
  ⟨(c5_encode_decode_calldata _).1 (by decide) (by decide) (by decide) (by decide)
      (by decide) (by decide) (by decide),
   (c5_encode_decode_calldata _).2 (by decide) (by decide) (by decide) (by decide)
      (by decide)⟩

/-! ## Rollup and system configuration (crates/genesis) -/

/-- `RollupConfig` (crates/genesis/src/rollup.rs), restricted to the fields
the verified operations consult; the remaining per-chain static parameters
(genesis, window sizes, addresses, other fork times) are not read by any
function under verification. -/
structure RollupConfig where
  regolith_time : Option Nat
deriving DecidableEq, Repr

/-- `RollupConfig::is_regolith_active`. -/
def RollupConfig.is_regolith_active (c : RollupConfig) (timestamp : Nat) : Bool :=
  match c.regolith_time with
  | none => false
  | some t => decide (t ≤ timestamp)

/-- `SystemConfig` (crates/genesis/src/system.rs). -/
structure SystemConfig where
  batcher_address : List Byte
  overhead : Nat
  scalar : Nat
  gas_limit : Nat
  base_fee : Nat
deriving DecidableEq, Repr

/-- The L1 header fields read by `L1BlockInfoTx::try_new`.  `hash_slow` is
the sealed header hash computed by external `alloy_consensus` code (keccak
of the RLP-encoded header), carried here as data. -/
structure L1Header where
  number : Nat
  timestamp : Nat
  base_fee_per_gas : Option Nat
  hash_slow : List Byte
deriving DecidableEq, Repr

/-- `BlockInfoError` (block_info.rs). -/
inductive BlockInfoError where
  | l1BlobBaseFeeScalar
  | baseFeeScalar
  | eip1559Denominator
  | eip1559Elasticity
deriving DecidableEq, Repr

/-- `L1BlockInfoTx::try_new`: always builds a Bedrock info transaction from
the system config, sequence number and L1 header. -/
def L1BlockInfoTx.try_new (system_config : SystemConfig) (sequence_number : Nat)
    (l1_header : L1Header) : Except BlockInfoError L1BlockInfoTx :=
  .ok (.bedrock
    { number := l1_header.number
      time := l1_header.timestamp
      base_fee := l1_header.base_fee_per_gas.getD 0
      block_hash := l1_header.hash_slow
      sequence_number := sequence_number
      batcher_address := system_config.batcher_address
      l1_fee_overhead := system_config.overhead
      l1_fee_scalar := system_config.scalar })

/-- `L1BlockInfoTx::try_new_with_deposit_tx`.  The Rust seals the deposit
into an `OpTxEnvelope::Deposit`; the envelope and seal wrappers are external
`alloy` machinery, so the model returns the `TxDeposit` itself. -/
def L1BlockInfoTx.try_new_with_deposit_tx (rollup_config : RollupConfig)
    (system_config : SystemConfig) (sequence_number : Nat) (l1_header : L1Header)
    (l2_block_time : Nat) : Except BlockInfoError (L1BlockInfoTx × TxDeposit) :=
  match L1BlockInfoTx.try_new system_config sequence_number l1_header with
  | .error e => .error e
  | .ok l1_info =>
    let deposit_tx : TxDeposit :=
      { source_hash := l1InfoSourceHash l1_info.block_hash sequence_number
        from_ := L1_INFO_DEPOSITOR_ADDRESS
        to_ := .call L1_BLOCK_ADDRESS
        mint := none
        value := 0
        gas_limit := 150000000
        is_system_transaction := true
        input := l1_info.encode_calldata
        eth_value := none
        eth_tx_value := none }
    let deposit_tx :=
      if rollup_config.is_regolith_active l2_block_time then
        { deposit_tx with is_system_transaction := false,
                          gas_limit := REGOLITH_SYSTEM_TX_GAS }
      else deposit_tx
    .ok (l1_info, deposit_tx)

/-! ### C6 -/

/-- C6: for every rollup config, system config, sequence number, L1 header
and L2 block time, `try_new_with_deposit_tx` succeeds with a deposit whose
`to` is the L1-block predeploy 0x42..15, whose `from` is the depositor
0xdead..0001, and whose input is the encoded L1-info calldata; when Regolith
is inactive at the L2 block time the deposit is a system transaction with
gas limit 150,000,000, and when Regolith is active it is not a system
transaction and has gas limit 1,000,000. -/
theorem c6_l1_info_deposit_tx (rollup_config : RollupConfig)
    (system_config : SystemConfig) (sequence_number : Nat) (l1_header : L1Header)
    (l2_block_time : Nat) :
    ∃ info tx,
      L1BlockInfoTx.try_new_with_deposit_tx rollup_config system_config
        sequence_number l1_header l2_block_time = .ok (info, tx) ∧
      tx.to_ = .call L1_BLOCK_ADDRESS ∧
      tx.from_ = L1_INFO_DEPOSITOR_ADDRESS ∧
      tx.input = info.encode_calldata ∧
      tx.is_system_transaction = !(rollup_config.is_regolith_active l2_block_time) ∧
      tx.gas_limit = if rollup_config.is_regolith_active l2_block_time
        then 1000000 else 150000000 := by
  refine ⟨_, _, rfl, ?_, ?_, ?_, ?_, ?_⟩ <;>
    by_cases hreg : rollup_config.is_regolith_active l2_block_time <;>
      simp [hreg, REGOLITH_SYSTEM_TX_GAS]

/-! ## System config updates (crates/genesis/src/system.rs)

`Log` flattens `alloy_primitives::Log { address, data: LogData { topics,
data } }`; `log.topics()` is the `topics` field and `log.data.data` the
`data` field. -/

/-- An EVM log. -/
structure Log where
  address : List Byte
  topics : List (List Byte)
  data : List Byte
deriving DecidableEq, Repr

/-- `alloy_consensus::Eip658Value`. -/
inductive Eip658Value where
  | eip658 (status : Bool)
  | postState (root : List Byte)
deriving DecidableEq, Repr

/-- `alloy_consensus::Receipt<Log>` as consumed by `update_with_receipts`. -/
structure Receipt where
  status : Eip658Value
  cumulative_gas_used : Nat
  logs : List Log
deriving DecidableEq, Repr

/-- `keccak256("ConfigUpdate(uint256,uint8,bytes)")`. -/
def CONFIG_UPDATE_TOPIC : List Byte :=
  [0x1d, 0x2b, 0x0b, 0xda, 0x21, 0xd5, 0x6b, 0x8b, 0xd1, 0x2d, 0x4f, 0x94,
   0xeb, 0xac, 0xff, 0xdf, 0xb3, 0x5f, 0x5e, 0x22, 0x6f, 0x84, 0xb4, 0x61,
   0x10, 0x3b, 0xb8, 0xbe, 0xab, 0x63, 0x53, 0xbe]

/-- `CONFIG_UPDATE_EVENT_VERSION_0` (the zero hash). -/
def CONFIG_UPDATE_EVENT_VERSION_0 : List Byte := List.replicate 32 0

/-- ABI decoding of a `uint64` word with validation (`alloy_sol_types`
`abi_decode(_, true)`): exactly one 32-byte word whose upper 24 bytes are
zero. -/
def abiDecodeUint64 (d : List Byte) : Option Nat :=
  if d.length = 32 ∧ slice d 0 24 = List.replicate 24 0 then
    some (fromBe (slice d 24 32))
  else none

/-- ABI decoding of an `address` word with validation: exactly one 32-byte
word whose upper 12 bytes are zero. -/
def abiDecodeAddress (d : List Byte) : Option (List Byte) :=
  if d.length = 32 ∧ slice d 0 12 = List.replicate 12 0 then
    some (slice d 12 32)
  else none

/-- ABI decoding of a `uint256` word: exactly one 32-byte word. -/
def abiDecodeUint256 (d : List Byte) : Option Nat :=
  if d.length = 32 then some (fromBe d) else none

/-- `LogProcessingError`. -/
inductive LogProcessingError where
  | invalidTopicLen (len : Nat)
  | invalidTopic
  | unsupportedVersion (version : List Byte)
  | updateTypeDecodingError
  | invalidSystemConfigUpdateType (value : Nat)
deriving DecidableEq, Repr

/-- `BatcherUpdateError`. -/
inductive BatcherUpdateError where
  | invalidDataLen (len : Nat)
  | pointerDecodingError
  | invalidDataPointer (pointer : Nat)
  | lengthDecodingError
  | invalidDataLength (len : Nat)
  | batcherAddressDecodingError
deriving DecidableEq, Repr

/-- `GasConfigUpdateError`. -/
inductive GasConfigUpdateError where
  | invalidDataLen (len : Nat)
  | pointerDecodingError
  | invalidDataPointer (pointer : Nat)
  | lengthDecodingError
  | invalidDataLength (len : Nat)
  | overheadDecodingError
  | scalarDecodingError
deriving DecidableEq, Repr

/-- `GasLimitUpdateError`. -/
inductive GasLimitUpdateError where
  | invalidDataLen (len : Nat)
  | pointerDecodingError
  | invalidDataPointer (pointer : Nat)
  | lengthDecodingError
  | invalidDataLength (len : Nat)
  | gasLimitDecodingError
deriving DecidableEq, Repr

/-- `BaseFeeUpdateError`. -/
inductive BaseFeeUpdateError where
  | invalidDataLen (len : Nat)
  | pointerDecodingError
  | invalidDataPointer (pointer : Nat)
  | lengthDecodingError
  | invalidDataLength (len : Nat)
  | baseFeeDecodingError
deriving DecidableEq, Repr

/-- `SystemConfigUpdateError`. -/
inductive SystemConfigUpdateError where
  | logProcessing (e : LogProcessingError)
  | batcher (e : BatcherUpdateError)
  | gasConfig (e : GasConfigUpdateError)
  | gasLimit (e : GasLimitUpdateError)
  | baseFee (e : BaseFeeUpdateError)
deriving DecidableEq, Repr

/-- `SystemConfig::update_batcher_address`.  The Rust mutates `self` and
returns the update type; the model returns the new config. -/
def SystemConfig.update_batcher_address (cfg : SystemConfig) (log_data : List Byte) :
    Except BatcherUpdateError SystemConfig :=
  if log_data.length ≠ 96 then .error (.invalidDataLen log_data.length)
  else
    match abiDecodeUint64 (slice log_data 0 32) with
    | none => .error .pointerDecodingError
    | some pointer =>
      if pointer ≠ 32 then .error (.invalidDataPointer pointer)
      else
        match abiDecodeUint64 (slice log_data 32 64) with
        | none => .error .lengthDecodingError
        | some len =>
          if len ≠ 32 then .error (.invalidDataLength len)
          else
            match abiDecodeAddress (slice log_data 64 96) with
            | none => .error .batcherAddressDecodingError
            | some batcher_address => .ok { cfg with batcher_address }

/-- `SystemConfig::update_base_fee_config`. -/
def SystemConfig.update_base_fee_config (cfg : SystemConfig) (log_data : List Byte) :
    Except BaseFeeUpdateError SystemConfig :=
  if log_data.length ≠ 96 then .error (.invalidDataLen log_data.length)
  else
    match abiDecodeUint64 (slice log_data 0 32) with
    | none => .error .pointerDecodingError
    | some pointer =>
      if pointer ≠ 32 then .error (.invalidDataPointer pointer)
      else
        match abiDecodeUint64 (slice log_data 32 64) with
        | none => .error .lengthDecodingError
        | some len =>
          if len ≠ 32 then .error (.invalidDataLength len)
          else
            match abiDecodeUint256 (slice log_data 64 96) with
            | none => .error .baseFeeDecodingError
            | some base_fee => .ok { cfg with base_fee }

/-- `SystemConfig::update_gas_config` (sets both scalar and overhead). -/
def SystemConfig.update_gas_config (cfg : SystemConfig) (log_data : List Byte) :
    Except GasConfigUpdateError SystemConfig :=
  if log_data.length ≠ 128 then .error (.invalidDataLen log_data.length)
  else
    match abiDecodeUint64 (slice log_data 0 32) with
    | none => .error .pointerDecodingError
    | some pointer =>
      if pointer ≠ 32 then .error (.invalidDataPointer pointer)
      else
        match abiDecodeUint64 (slice log_data 32 64) with
        | none => .error .lengthDecodingError
        | some len =>
          if len ≠ 64 then .error (.invalidDataLength len)
          else
            match abiDecodeUint256 (slice log_data 64 96) with
            | none => .error .overheadDecodingError
            | some overhead =>
              match abiDecodeUint256 (slice log_data 96 128) with
              | none => .error .scalarDecodingError
              | some scalar => .ok { cfg with scalar, overhead }

/-- `SystemConfig::update_gas_limit`.  The 256-bit value is
truncated/saturated into a `u64` (`U64::from(..).saturating_to::<u64>()`). -/
def SystemConfig.update_gas_limit (cfg : SystemConfig) (log_data : List Byte) :
    Except GasLimitUpdateError SystemConfig :=
  if log_data.length ≠ 96 then .error (.invalidDataLen log_data.length)
  else
    match abiDecodeUint64 (slice log_data 0 32) with
    | none => .error .pointerDecodingError
    | some pointer =>
      if pointer ≠ 32 then .error (.invalidDataPointer pointer)
      else
        match abiDecodeUint64 (slice log_data 32 64) with
        | none => .error .lengthDecodingError
        | some len =>
          if len ≠ 32 then .error (.invalidDataLength len)
          else
            match abiDecodeUint256 (slice log_data 64 96) with
            | none => .error .gasLimitDecodingError
            | some gas_limit =>
              .ok { cfg with gas_limit := min gas_limit (2 ^ 64 - 1) }

/-- `SystemConfig::process_config_update_log`.  The Rust also returns the
applied `SystemConfigUpdateType`, which `update_with_receipts` discards;
the model returns the new config.  `UnsafeBlockSigner` (discriminant 3) is
recognized and intentionally leaves the config unchanged. -/
def SystemConfig.process_config_update_log (cfg : SystemConfig) (log : Log) :
    Except SystemConfigUpdateError SystemConfig :=
  if log.topics.length < 3 then
    .error (.logProcessing (.invalidTopicLen log.topics.length))
  else if log.topics.getD 0 [] ≠ CONFIG_UPDATE_TOPIC then
    .error (.logProcessing .invalidTopic)
  else if log.topics.getD 1 [] ≠ CONFIG_UPDATE_EVENT_VERSION_0 then
    .error (.logProcessing (.unsupportedVersion (log.topics.getD 1 [])))
  else if ((log.topics.getD 2 []).drop 24).length ≠ 8 then
    .error (.logProcessing .updateTypeDecodingError)
  else
    let update_type := fromBe ((log.topics.getD 2 []).drop 24)
    if update_type = 0 then
      (cfg.update_batcher_address log.data).mapError .batcher
    else if update_type = 1 then
      (cfg.update_gas_config log.data).mapError .gasConfig
    else if update_type = 2 then
      (cfg.update_gas_limit log.data).mapError .gasLimit
    else if update_type = 3 then
      .ok cfg
    else if update_type = 4 then
      (cfg.update_base_fee_config log.data).mapError .baseFee
    else
      .error (.logProcessing (.invalidSystemConfigUpdateType update_type))

/-- Whether `update_with_receipts` processes a log: address match, non-empty
topics and the config-update signature in topic 0. -/
def matchingLog (l1_system_config_address : List Byte) (log : Log) : Prop :=
  log.address = l1_system_config_address ∧ log.topics ≠ [] ∧
    log.topics.getD 0 [] = CONFIG_UPDATE_TOPIC

instance (addr : List Byte) (log : Log) : Decidable (matchingLog addr log) := by
  unfold matchingLog
  infer_instance

/-- The per-receipt log scan of `update_with_receipts` (its `try_for_each`),
threading the mutated config and stopping at the first error with the
config as updated by the earlier logs. -/
def processLogs (cfg : SystemConfig) (l1_system_config_address : List Byte) :
    List Log → SystemConfig × Option SystemConfigUpdateError
  | [] => (cfg, none)
  | log :: rest =>
    if matchingLog l1_system_config_address log then
      match cfg.process_config_update_log log with
      | .error e => (cfg, some e)
      | .ok cfg' => processLogs cfg' l1_system_config_address rest
    else processLogs cfg l1_system_config_address rest

/-- `SystemConfig::update_with_receipts`: for every receipt whose status is
not the explicit failure value, scan its logs; the pair returned is the
config after the applied updates (the Rust mutates `&mut self`) together
with the first error, if any. -/
def update_with_receipts (cfg : SystemConfig) (receipts : List Receipt)
    (l1_system_config_address : List Byte) :
    SystemConfig × Option SystemConfigUpdateError :=
  match receipts with
  | [] => (cfg, none)
  | r :: rest =>
    if r.status = .eip658 false then
      update_with_receipts cfg rest l1_system_config_address
    else
      match processLogs cfg l1_system_config_address r.logs with
      | (cfg', none) => update_with_receipts cfg' rest l1_system_config_address
      | (cfg', some e) => (cfg', some e)

/-! ### C7 -/

theorem processLogs_append (cfg : SystemConfig) (addr : List Byte)
    (l1 l2 : List Log) :
    processLogs cfg addr (l1 ++ l2) =
      match processLogs cfg addr l1 with
      | (c, none) => processLogs c addr l2
      | (c, some e) => (c, some e) := by
  induction l1 generalizing cfg with
  | nil => simp [processLogs]
  | cons log rest ih =>
    rw [List.cons_append, processLogs, processLogs]
    by_cases hm : matchingLog addr log
    · rw [if_pos hm, if_pos hm]
      cases cfg.process_config_update_log log with
      | error e => rfl
      | ok cfg' => exact ih cfg'
    · rw [if_neg hm, if_neg hm]
      exact ih cfg

theorem processLogs_append_ok (cfg c : SystemConfig) (addr : List Byte)
    (l1 l2 : List Log) (h : processLogs cfg addr l1 = (c, none)) :
    processLogs cfg addr (l1 ++ l2) = processLogs c addr l2 := by
  rw [processLogs_append, h]

theorem update_with_receipts_append (cfg : SystemConfig) (addr : List Byte)
    (r1 r2 : List Receipt) :
    update_with_receipts cfg (r1 ++ r2) addr =
      match update_with_receipts cfg r1 addr with
      | (c, none) => update_with_receipts c r2 addr
      | (c, some e) => (c, some e) := by
  induction r1 generalizing cfg with
  | nil => simp [update_with_receipts]
  | cons r rest ih =>
    rw [List.cons_append, update_with_receipts, update_with_receipts]
    by_cases hs : r.status = .eip658 false
    · rw [if_pos hs, if_pos hs]
      exact ih cfg
    · rw [if_neg hs, if_neg hs]
      cases hp : processLogs cfg addr r.logs with
      | mk cfg' oe =>
        cases oe with
        | none => exact ih cfg'
        | some e => rfl

theorem update_with_receipts_append_ok (cfg c : SystemConfig) (addr : List Byte)
    (r1 r2 : List Receipt) (h : update_with_receipts cfg r1 addr = (c, none)) :
    update_with_receipts cfg (r1 ++ r2) addr = update_with_receipts c r2 addr := by
  rw [update_with_receipts_append, h]

/-- C7: `update_with_receipts` skips failed-status receipts; within a
receipt it skips logs that do not match the watched address and the
config-update signature; matching well-formed logs update the config in
order; and the first malformed matching log aborts the whole batch at once:
the result is the config as updated by the earlier well-formed logs (no
rollback) paired with that log's error, regardless of the logs and receipts
that follow (none of which are processed). -/
theorem c7_update_with_receipts_policy :
    (∀ (cfg : SystemConfig) (addr : List Byte) (r : Receipt) (rest : List Receipt),
      r.status = .eip658 false →
      update_with_receipts cfg (r :: rest) addr = update_with_receipts cfg rest addr) ∧
    (∀ (cfg : SystemConfig) (addr : List Byte) (log : Log) (logs : List Log),
      ¬ matchingLog addr log →
      processLogs cfg addr (log :: logs) = processLogs cfg addr logs) ∧
    (∀ (cfg cfg' : SystemConfig) (addr : List Byte) (log : Log) (logs : List Log),
      matchingLog addr log →
      cfg.process_config_update_log log = .ok cfg' →
      processLogs cfg addr (log :: logs) = processLogs cfg' addr logs) ∧
    (∀ (cfg cfg1 : SystemConfig) (addr : List Byte) (logs1 : List Log) (log : Log)
       (logs2 : List Log) (e : SystemConfigUpdateError),
      processLogs cfg addr logs1 = (cfg1, none) →
      matchingLog addr log →
      cfg1.process_config_update_log log = .error e →
      processLogs cfg addr (logs1 ++ log :: logs2) = (cfg1, some e)) ∧
    (∀ (cfg cfg1 cfg2 : SystemConfig) (addr : List Byte) (rs1 : List Receipt)
       (r : Receipt) (rs2 : List Receipt) (e : SystemConfigUpdateError),
      update_with_receipts cfg rs1 addr = (cfg1, none) →
      r.status ≠ .eip658 false →
      processLogs cfg1 addr r.logs = (cfg2, some e) →
      update_with_receipts cfg (rs1 ++ r :: rs2) addr = (cfg2, some e)) := by
  refine ⟨?_, ?_, ?_, ?_, ?_⟩
  · intro cfg addr r rest hs
    rw [update_with_receipts, if_pos hs]
  · intro cfg addr log logs hm
    rw [processLogs, if_neg hm]
  · intro cfg cfg' addr log logs hm hok
    rw [processLogs, if_pos hm, hok]
  · intro cfg cfg1 addr logs1 log logs2 e h1 hm herr
    rw [processLogs_append_ok cfg cfg1 addr logs1 (log :: logs2) h1]
    rw [processLogs, if_pos hm, herr]
  · intro cfg cfg1 cfg2 addr rs1 r rs2 e h1 hs hp
    rw [update_with_receipts_append_ok cfg cfg1 addr rs1 (r :: rs2) h1]
    rw [update_with_receipts, if_neg hs, hp]

/-- Witness for C7: the five parts evaluated on concrete receipts.  The
well-formed batcher-update log sets the batcher address to 0x..beef; the
same log with empty data is malformed and aborts with the batcher
`InvalidDataLen 0` error while the earlier update's effect remains. -/
theorem c7_update_with_receipts_policy_witness :
    update_with_receipts ⟨List.replicate 20 0, 0, 0, 0, 0⟩
      [⟨.eip658 false, 0, [⟨List.replicate 20 0,
        [CONFIG_UPDATE_TOPIC, CONFIG_UPDATE_EVENT_VERSION_0, List.replicate 32 0],
        []⟩]⟩] (List.replicate 20 0) =
      update_with_receipts ⟨List.replicate 20 0, 0, 0, 0, 0⟩ [] (List.replicate 20 0) ∧
    processLogs ⟨List.replicate 20 0, 0, 0, 0, 0⟩ (List.replicate 20 0)
      [⟨List.replicate 20 1, [CONFIG_UPDATE_TOPIC], []⟩] =
      processLogs ⟨List.replicate 20 0, 0, 0, 0, 0⟩ (List.replicate 20 0) [] ∧
    processLogs ⟨List.replicate 20 0, 0, 0, 0, 0⟩ (List.replicate 20 0)
      [⟨List.replicate 20 0,
        [CONFIG_UPDATE_TOPIC, CONFIG_UPDATE_EVENT_VERSION_0, List.replicate 32 0],
        beBytes 32 32 ++ beBytes 32 32 ++
          (List.replicate 30 0 ++ [0xbe, 0xef])⟩] =
      processLogs ⟨List.replicate 18 0 ++ [0xbe, 0xef], 0, 0, 0, 0⟩
        (List.replicate 20 0) [] ∧
    processLogs ⟨List.replicate 20 0, 0, 0, 0, 0⟩ (List.replicate 20 0)
      ([] ++ ⟨List.replicate 20 0,
        [CONFIG_UPDATE_TOPIC, CONFIG_UPDATE_EVENT_VERSION_0, List.replicate 32 0],
        []⟩ :: []) =
      (⟨List.replicate 20 0, 0, 0, 0, 0⟩, some (.batcher (.invalidDataLen 0))) ∧
    update_with_receipts ⟨List.replicate 20 0, 0, 0, 0, 0⟩
      ([] ++ ⟨.eip658 true, 0, [⟨List.replicate 20 0,
        [CONFIG_UPDATE_TOPIC, CONFIG_UPDATE_EVENT_VERSION_0, List.replicate 32 0],
        []⟩]⟩ :: []) (List.replicate 20 0) =
      (⟨List.replicate 20 0, 0, 0, 0, 0⟩, some (.batcher (.invalidDataLen 0))) := by
  refine ⟨?_, ?_, ?_, ?_, ?_⟩
  · exact c7_update_with_receipts_policy.1 _ _ _ _ (by decide)
  · exact c7_update_with_receipts_policy.2.1 _ _ _ _ (by decide)
  · exact c7_update_with_receipts_policy.2.2.1
      ⟨List.replicate 20 0, 0, 0, 0, 0⟩
      ⟨List.replicate 18 0 ++ [0xbe, 0xef], 0, 0, 0, 0⟩
      (List.replicate 20 0) _ _ (by decide) (by decide)
  · exact c7_update_with_receipts_policy.2.2.2.1
      ⟨List.replicate 20 0, 0, 0, 0, 0⟩ ⟨List.replicate 20 0, 0, 0, 0, 0⟩
      (List.replicate 20 0) [] _ []
      (.batcher (.invalidDataLen 0)) (by decide) (by decide) (by decide)
  · exact c7_update_with_receipts_policy.2.2.2.2
      ⟨List.replicate 20 0, 0, 0, 0, 0⟩ ⟨List.replicate 20 0, 0, 0, 0, 0⟩
      ⟨List.replicate 20 0, 0, 0, 0, 0⟩
      (List.replicate 20 0) [] _ []
      (.batcher (.invalidDataLen 0)) (by decide) (by decide) (by decide)

/-! ## Mantle deposit receipts (crates/consensus/src/receipt/mantle.rs)

`MantleDepositReceipt<T>` is generic over the log type `T: Decodable`; the
embedding is parametric over the log decoder `decT`.  The base
`alloy_consensus::Receipt` codec (status, cumulative gas, bloom, logs) is an
external dependency, embedded from its standard RLP semantics. -/

/-- A generic receiver for a decoder of the log type `T`. -/
abbrev Decoder (T : Type) := List Byte → Except RlpError (T × List Byte)

/-- `alloy_consensus::Receipt<T>`. -/
structure ReceiptT (T : Type) where
  status : Eip658Value
  cumulative_gas_used : Nat
  logs : List T
deriving DecidableEq, Repr

/-- `MantleDepositReceipt<T>`: base receipt plus the ordered optional tail
(deposit nonce, deposit receipt version, l1 gas price, l1 gas used, l1 fee,
token ratio). -/
structure MantleDepositReceipt (T : Type) where
  inner : ReceiptT T
  deposit_nonce : Option Nat
  deposit_receipt_version : Option Nat
  l1_gas_price : Option Nat
  l1_gas_used : Option Nat
  l1_fee : Option Nat
  token_ratio : Option Nat
deriving DecidableEq, Repr

/-- `alloy_consensus::ReceiptWithBloom` for the Mantle receipt. -/
structure MantleReceiptWithBloom (T : Type) where
  logs_bloom : List Byte
  receipt : MantleDepositReceipt T
deriving DecidableEq, Repr

/-- `Eip658Value` RLP decoding (alloy_consensus): an empty-string byte is a
false status, 0x01 a true status, anything else a 32-byte post state. -/
def decodeEip658Value : Decoder Eip658Value
  | [] => .error .inputTooShort
  | b :: rest =>
    if b.val = 0x80 then .ok (.eip658 false, rest)
    else if b.val = 0x01 then .ok (.eip658 true, rest)
    else
      match decodeFixedBytes 32 (b :: rest) with
      | .error e => .error e
      | .ok (root, r) => .ok (.postState root, r)

/-- Items of an RLP list payload, decoded until the payload is exhausted
(`impl Decodable for Vec<T>`).  The fuel is the payload length; a decoder
that consumed nothing would loop in Rust, here it exhausts the fuel. -/
def decodeListAux {T : Type} (decT : Decoder T) :
    Nat → List Byte → Except RlpError (List T)
  | _, [] => .ok []
  | 0, _ :: _ => .error .customErr
  | fuel + 1, b :: rest =>
    match decT (b :: rest) with
    | .error e => .error e
    | .ok (t, r) =>
      match decodeListAux decT fuel r with
      | .error e => .error e
      | .ok ts => .ok (t :: ts)

/-- `Vec<T>` RLP decoding: a list header, then items from exactly the
payload. -/
def decodeVec {T : Type} (decT : Decoder T) : Decoder (List T) := fun buf =>
  match decodeBytesPayload true buf with
  | .error e => .error e
  | .ok (payload, rest) =>
    match decodeListAux decT payload.length payload with
    | .error e => .error e
    | .ok ts => .ok (ts, rest)

/-- `Receipt::rlp_decode_fields_with_bloom` (alloy_consensus): status,
cumulative gas used, logs bloom, logs. -/
def receiptRlpDecodeFieldsWithBloom {T : Type} (decT : Decoder T)
    (buf : List Byte) : Except RlpError ((ReceiptT T × List Byte) × List Byte) :=
  match decodeEip658Value buf with
  | .error e => .error e
  | .ok (status, b1) =>
  match decodeUint 8 b1 with
  | .error e => .error e
  | .ok (cumulative_gas_used, b2) =>
  match decodeFixedBytes 256 b2 with
  | .error e => .error e
  | .ok (logs_bloom, b3) =>
  match decodeVec decT b3 with
  | .error e => .error e
  | .ok (logs, b4) => .ok ((⟨status, cumulative_gas_used, logs⟩, logs_bloom), b4)

/-- One optional tail slot: present exactly when bytes remain
(`(!buf.is_empty()).then(|| Decodable::decode(buf)).transpose()?`). -/
def decodeTailU (w : Nat) (buf : List Byte) :
    Except RlpError (Option Nat × List Byte) :=
  if buf.isEmpty then .ok (none, buf)
  else
    match decodeUint w buf with
    | .error e => .error e
    | .ok (v, r) => .ok (some v, r)

/-- `MantleDepositReceipt::rlp_decode_fields_with_bloom`. -/
def mantleRlpDecodeFieldsWithBloom {T : Type} (decT : Decoder T)
    (buf : List Byte) : Except RlpError (MantleReceiptWithBloom T × List Byte) :=
  match receiptRlpDecodeFieldsWithBloom decT buf with
  | .error e => .error e
  | .ok ((inner, logs_bloom), b0) =>
  match decodeTailU 8 b0 with
  | .error e => .error e
  | .ok (deposit_nonce, b1) =>
  match decodeTailU 8 b1 with
  | .error e => .error e
  | .ok (deposit_receipt_version, b2) =>
  match decodeTailU 16 b2 with
  | .error e => .error e
  | .ok (l1_gas_price, b3) =>
  match decodeTailU 16 b3 with
  | .error e => .error e
  | .ok (l1_gas_used, b4) =>
  match decodeTailU 16 b4 with
  | .error e => .error e
  | .ok (l1_fee, b5) =>
  match decodeTailU 16 b5 with
  | .error e => .error e
  | .ok (token_ratio, b6) =>
    .ok (⟨logs_bloom, ⟨inner, deposit_nonce, deposit_receipt_version,
      l1_gas_price, l1_gas_used, l1_fee, token_ratio⟩⟩, b6)

/-- `MantleDepositReceipt::rlp_decode_with_bloom`: header, list check,
length bound, fields decoded from the sub-buffer sliced to exactly
`payload_length`, and an `UnexpectedLength` failure if the sub-buffer is not
fully consumed. -/
def mantleRlpDecodeWithBloom {T : Type} (decT : Decoder T)
    (buf : List Byte) : Except RlpError (MantleReceiptWithBloom T × List Byte) :=
  match decodeHeader buf with
  | .error e => .error e
  | .ok (h, rest) =>
    if !h.list then .error .unexpectedString
    else if rest.length < h.payload_length then .error .inputTooShort
    else
      match mantleRlpDecodeFieldsWithBloom decT (rest.take h.payload_length) with
      | .error e => .error e
      | .ok (this, fields_rest) =>
        if fields_rest.isEmpty then .ok (this, rest.drop h.payload_length)
        else .error .unexpectedLength

/-- A tail slot decoded as absent means its buffer was already empty (and so
stays empty). -/
theorem decodeTailU_none (w : Nat) (buf r : List Byte)
    (h : decodeTailU w buf = .ok (none, r)) : buf = [] ∧ r = [] := by
  unfold decodeTailU at h
  by_cases he : buf.isEmpty
  · rw [if_pos he] at h
    simp only [Except.ok.injEq, Prod.mk.injEq, true_and] at h
    have hb : buf = [] := List.isEmpty_iff.mp he
    exact ⟨hb, by rw [← h, hb]⟩
  · rw [if_neg he] at h
    cases hd : decodeUint w buf with
    | error e => rw [hd] at h; exact absurd h (by simp)
    | ok p =>
      rw [hd] at h
      obtain ⟨v, rr⟩ := p
      simp at h

/-- Two consecutive tail slots: if the later one is present, so is the
earlier one. -/
theorem decodeTailU_chain (w1 w2 : Nat) (a b c : List Byte)
    (o p : Option Nat) (h1 : decodeTailU w1 a = .ok (o, b))
    (h2 : decodeTailU w2 b = .ok (p, c)) : p.isSome → o.isSome := by
  intro hp
  cases o with
  | some v => rfl
  | none =>
    obtain ⟨-, hb⟩ := decodeTailU_none w1 a b h1
    rw [hb, show decodeTailU w2 [] = Except.ok (none, ([] : List Byte)) from rfl] at h2
    simp only [Except.ok.injEq, Prod.mk.injEq] at h2
    rw [← h2.1] at hp
    exact absurd hp (by simp)

/-- The tail fields of a fields-decode result are monotone: each present
field implies all earlier ones are present. -/
theorem mantleFields_tail_monotone {T : Type} (decT : Decoder T)
    (buf : List Byte) (out : MantleReceiptWithBloom T) (rest : List Byte)
    (h : mantleRlpDecodeFieldsWithBloom decT buf = .ok (out, rest)) :
    (out.receipt.deposit_receipt_version.isSome → out.receipt.deposit_nonce.isSome) ∧
    (out.receipt.l1_gas_price.isSome → out.receipt.deposit_receipt_version.isSome) ∧
    (out.receipt.l1_gas_used.isSome → out.receipt.l1_gas_price.isSome) ∧
    (out.receipt.l1_fee.isSome → out.receipt.l1_gas_used.isSome) ∧
    (out.receipt.token_ratio.isSome → out.receipt.l1_fee.isSome) := by
  unfold mantleRlpDecodeFieldsWithBloom at h
  split at h
  · exact absurd h (by simp)
  rename_i base hbase
  split at h
  · exact absurd h (by simp)
  rename_i o1 b1 h1
  split at h
  · exact absurd h (by simp)
  rename_i o2 b2 h2
  split at h
  · exact absurd h (by simp)
  rename_i o3 b3 h3
  split at h
  · exact absurd h (by simp)
  rename_i o4 b4 h4
  split at h
  · exact absurd h (by simp)
  rename_i o5 b5 h5
  split at h
  · exact absurd h (by simp)
  rename_i o6 b6 h6
  simp only [Except.ok.injEq, Prod.mk.injEq] at h
  obtain ⟨hout, -⟩ := h
  subst hout
  exact ⟨decodeTailU_chain _ _ _ _ _ _ _ h1 h2,
    decodeTailU_chain _ _ _ _ _ _ _ h2 h3,
    decodeTailU_chain _ _ _ _ _ _ _ h3 h4,
    decodeTailU_chain _ _ _ _ _ _ _ h4 h5,
    decodeTailU_chain _ _ _ _ _ _ _ h5 h6⟩

/-- C3: every buffer accepted by `MantleDepositReceipt::rlp_decode_with_bloom`
decodes its fields from the sub-buffer sliced to exactly
`header.payload_length` bytes and consumes it fully, the six optional tail
fields are positionally monotone (a present field implies all earlier tail
fields are present, so a payload with N tail values yields exactly the first
N present), and a fields decode that leaves the sub-buffer not fully
consumed makes the whole decode fail with `UnexpectedLength`. -/
theorem c3_receipt_tail_policy {T : Type} (decT : Decoder T) (buf : List Byte) :
    (∀ out rest, mantleRlpDecodeWithBloom decT buf = .ok (out, rest) →
      ∃ h r, decodeHeader buf = .ok (h, r) ∧ h.list = true ∧
        h.payload_length ≤ r.length ∧
        mantleRlpDecodeFieldsWithBloom decT (r.take h.payload_length) =
          .ok (out, []) ∧
        rest = r.drop h.payload_length ∧
        (out.receipt.deposit_receipt_version.isSome →
          out.receipt.deposit_nonce.isSome) ∧
        (out.receipt.l1_gas_price.isSome →
          out.receipt.deposit_receipt_version.isSome) ∧
        (out.receipt.l1_gas_used.isSome → out.receipt.l1_gas_price.isSome) ∧
        (out.receipt.l1_fee.isSome → out.receipt.l1_gas_used.isSome) ∧
        (out.receipt.token_ratio.isSome → out.receipt.l1_fee.isSome)) ∧
    (∀ h r out left, decodeHeader buf = .ok (h, r) → h.list = true →
      h.payload_length ≤ r.length →
      mantleRlpDecodeFieldsWithBloom decT (r.take h.payload_length) =
        .ok (out, left) →
      left ≠ [] →
      mantleRlpDecodeWithBloom decT buf = .error .unexpectedLength) := by
  constructor
  · intro out rest hdec
    unfold mantleRlpDecodeWithBloom at hdec
    split at hdec
    · exact absurd hdec (by simp)
    rename_i h r hh
    by_cases hl : h.list = true
    · rw [hl] at hdec
      simp only [Bool.not_true, Bool.false_eq_true, if_false] at hdec
      by_cases hlen : r.length < h.payload_length
      · rw [if_pos hlen] at hdec
        exact absurd hdec (by simp)
      · rw [if_neg hlen] at hdec
        split at hdec
        · exact absurd hdec (by simp)
        rename_i outv fields_rest hf
        by_cases hfr : fields_rest.isEmpty
        · rw [if_pos hfr] at hdec
          simp only [Except.ok.injEq, Prod.mk.injEq] at hdec
          obtain ⟨hthis, hrest⟩ := hdec
          subst hthis
          have hfe : fields_rest = [] := List.isEmpty_iff.mp hfr
          rw [hfe] at hf
          obtain ⟨m1, m2, m3, m4, m5⟩ :=
            mantleFields_tail_monotone decT (r.take h.payload_length) outv [] hf
          exact ⟨h, r, hh, hl, Nat.le_of_not_lt hlen, hf, hrest.symm,
            m1, m2, m3, m4, m5⟩
        · rw [if_neg hfr] at hdec
          exact absurd hdec (by simp)
    · have hl' : h.list = false := by
        cases hb : h.list
        · rfl
        · exact absurd hb hl
      rw [hl'] at hdec
      simp only [Bool.not_false, if_true] at hdec
      exact absurd hdec (by simp)
  · intro h r out left hh hl hlen hf hleft
    unfold mantleRlpDecodeWithBloom
    rw [hh]
    simp only [hl, Bool.not_true, Bool.false_eq_true, if_false]
    rw [if_neg (Nat.not_lt.mpr hlen), hf]
    simp only [List.isEmpty_iff]
    rw [if_neg hleft]

/-- A log decoder for the unit log type; never reached on the witness
buffers, whose log lists are empty. -/
def c3DecUnit : Decoder Unit := fun _ => .error .customErr

/-- The base receipt payload shared by the C3 witness buffers: succeeded
status, zero cumulative gas, an all-zero 256-byte bloom, no logs. -/
def c3BasePayload : List Byte :=
  [mkByte 0x01, mkByte 0x80, mkByte 0xb9, mkByte 0x01, mkByte 0x00] ++
    List.replicate 256 (mkByte 0) ++ [mkByte 0xc0]

/-- A well-formed Mantle receipt buffer with exactly one tail field (a
deposit nonce of 5). -/
def c3BufGood : List Byte :=
  [mkByte 0xf9, mkByte 0x01, mkByte 0x07] ++ c3BasePayload ++ [mkByte 0x05]

/-- The receipt decoded from `c3BufGood`. -/
def c3OutGood : MantleReceiptWithBloom Unit :=
  ⟨List.replicate 256 (mkByte 0),
    ⟨⟨.eip658 true, 0, []⟩, some 5, none, none, none, none, none⟩⟩

/-- A Mantle receipt buffer whose payload carries seven tail integers: one
more than the six tail fields, so one byte is left unconsumed. -/
def c3BufBad : List Byte :=
  [mkByte 0xf9, mkByte 0x01, mkByte 0x0d] ++ c3BasePayload ++
    [mkByte 0x01, mkByte 0x02, mkByte 0x03, mkByte 0x04, mkByte 0x05,
      mkByte 0x06, mkByte 0x07]

/-- The receipt decoded from `c3BufBad`'s payload before the leftover check. -/
def c3OutBad : MantleReceiptWithBloom Unit :=
  ⟨List.replicate 256 (mkByte 0),
    ⟨⟨.eip658 true, 0, []⟩, some 1, some 2, some 3, some 4, some 5, some 6⟩⟩

set_option maxRecDepth 40000 in
/-- Witness for C3 on concrete buffers. -/
theorem c3_receipt_tail_policy_witness :
    (∃ h r, decodeHeader c3BufGood = .ok (h, r) ∧ h.list = true ∧
      h.payload_length ≤ r.length ∧
      mantleRlpDecodeFieldsWithBloom c3DecUnit (r.take h.payload_length) =
        .ok (c3OutGood, []) ∧
      ([] : List Byte) = r.drop h.payload_length ∧
      (c3OutGood.receipt.deposit_receipt_version.isSome →
        c3OutGood.receipt.deposit_nonce.isSome) ∧
      (c3OutGood.receipt.l1_gas_price.isSome →
        c3OutGood.receipt.deposit_receipt_version.isSome) ∧
      (c3OutGood.receipt.l1_gas_used.isSome →
        c3OutGood.receipt.l1_gas_price.isSome) ∧
      (c3OutGood.receipt.l1_fee.isSome → c3OutGood.receipt.l1_gas_used.isSome) ∧
      (c3OutGood.receipt.token_ratio.isSome → c3OutGood.receipt.l1_fee.isSome)) ∧
    mantleRlpDecodeWithBloom c3DecUnit c3BufBad = .error .unexpectedLength :=
  ⟨(c3_receipt_tail_policy c3DecUnit c3BufGood).1 c3OutGood [] (by decide),
   (c3_receipt_tail_policy c3DecUnit c3BufBad).2 ⟨true, 269⟩
     (c3BasePayload ++ [mkByte 0x01, mkByte 0x02, mkByte 0x03, mkByte 0x04,
       mkByte 0x05, mkByte 0x06, mkByte 0x07])
     c3OutBad [mkByte 0x07] (by decide) (by decide) (by decide) (by decide)
     (by decide)⟩

/-! ## Deposit log decoding (crates/protocol/src/deposits.rs)

`decode_deposit` turns a `TransactionDeposited` event log into the EIP-2718
re-encoding of the derived deposit transaction. -/

/-- `DEPOSIT_EVENT_ABI_HASH`
(`keccak256("TransactionDeposited(address,address,uint256,bytes)")`,
a literal constant in the source). -/
def DEPOSIT_EVENT_ABI_HASH : List Byte :=
  [0xb3, 0x81, 0x35, 0x68, 0xd9, 0x99, 0x1f, 0xc9, 0x51, 0x96, 0x1f, 0xcb,
   0x4c, 0x78, 0x48, 0x93, 0x57, 0x42, 0x40, 0xa2, 0x89, 0x25, 0x60, 0x4d,
   0x09, 0xfc, 0x57, 0x7c, 0x55, 0xbb, 0x7c, 0x32].map mkByte

/-- `DEPOSIT_EVENT_VERSION_0` (`B256::ZERO`). -/
def DEPOSIT_EVENT_VERSION_0 : List Byte := List.replicate 32 (mkByte 0)

/-- `DEPOSIT_EVENT_VERSION_1`. -/
def DEPOSIT_EVENT_VERSION_1 : List Byte :=
  List.replicate 31 (mkByte 0) ++ [mkByte 1]

/-- `DepositError` (deposits.rs). -/
inductive DepositError where
  | unexpectedTopicsLen (len : Nat)
  | invalidSelector (expected actual : List Byte)
  | incompleteOpaqueData (len : Nat)
  | unalignedData (len : Nat)
  | fromDecode (topic : List Byte)
  | toDecode (topic : List Byte)
  | invalidOpaqueDataOffset (bytes : List Byte)
  | invalidOpaqueDataLength (bytes : List Byte)
  | opaqueDataOverflow (len other : Nat)
  | paddedOpaqueDataOverflow (len other : Nat)
  | invalidVersion (version : List Byte)
  | unexpectedOpaqueDataLen (len : Nat)
  | mintDecode (bytes : List Byte)
  | gasDecode (bytes : List Byte)
  | ethValueDecode (bytes : List Byte)
  | ethTxValueDecode (bytes : List Byte)
deriving DecidableEq, Repr

/-- `Default::default()` for `TxDeposit` (derived `Default`: zero hash and
address, the create kind, zero numerics, absent optionals, empty input). -/
def TxDeposit.default : TxDeposit :=
  ⟨List.replicate 32 (mkByte 0), List.replicate 20 (mkByte 0), .create,
    none, 0, 0, false, none, [], none⟩

/-- `decode_u128_field`: the low 16 bytes of the 32-byte slot at `offset`,
big endian, with a zero value normalized to `None`.  The error payload is
the raw slice, wrapped by the caller; the `try_into` can only fail when the
slot is cut short. -/
def decode_u128_field (data : List Byte) (offset : Nat) :
    Except (List Byte) (Option Nat) :=
  if (slice data (offset + 16) (offset + 32)).length = 16 then
    .ok (if fromBe (slice data (offset + 16) (offset + 32)) = 0 then none
         else some (fromBe (slice data (offset + 16) (offset + 32))))
  else .error (slice data (offset + 16) (offset + 32))

/-- `decode_u8_field`: the 8 bytes at `offset`, big endian, as a `u64`. -/
def decode_u8_field (data : List Byte) (offset : Nat) :
    Except (List Byte) Nat :=
  if (slice data offset (offset + 8)).length = 8 then
    .ok (fromBe (slice data offset (offset + 8)))
  else .error (slice data offset (offset + 8))

/-- `unmarshal_deposit_version0`: mint at 0, value at 32, eth value at 64,
gas at 96, the isCreation byte at 104, the rest (from 105) is the input. -/
def unmarshal_deposit_version0 (tx : TxDeposit) (to_a : List Byte)
    (data : List Byte) : Except DepositError TxDeposit :=
  if data.length < 32 + 32 + 32 + 8 + 1 then
    .error (.unexpectedOpaqueDataLen data.length)
  else
    match decode_u128_field data 0 with
    | .error b => .error (.mintDecode b)
    | .ok mint =>
    match decode_u128_field data 64 with
    | .error b => .error (.ethValueDecode b)
    | .ok eth_value =>
    match decode_u8_field data 96 with
    | .error b => .error (.gasDecode b)
    | .ok gas_limit =>
      .ok { tx with
        mint := mint
        value := fromBe (slice data 32 64)
        eth_value := eth_value
        gas_limit := gas_limit
        to_ := if (data.getD 104 (mkByte 0)).val = 0 then TxKind.call to_a
          else TxKind.create
        input := slice data 105 data.length }

/-- `unmarshal_deposit_version1`: mint at 0, value at 32, eth value at 64,
eth tx value at 96, gas at 128, the isCreation byte at 136, the rest (from
137) is the input. -/
def unmarshal_deposit_version1 (tx : TxDeposit) (to_a : List Byte)
    (data : List Byte) : Except DepositError TxDeposit :=
  if data.length < 32 + 32 + 32 + 32 + 8 + 1 then
    .error (.unexpectedOpaqueDataLen data.length)
  else
    match decode_u128_field data 0 with
    | .error b => .error (.mintDecode b)
    | .ok mint =>
    match decode_u128_field data 64 with
    | .error b => .error (.ethValueDecode b)
    | .ok eth_value =>
    match decode_u128_field data 96 with
    | .error b => .error (.ethTxValueDecode b)
    | .ok eth_tx_value =>
    match decode_u8_field data 128 with
    | .error b => .error (.gasDecode b)
    | .ok gas_limit =>
      .ok { tx with
        mint := mint
        value := fromBe (slice data 32 64)
        eth_value := eth_value
        eth_tx_value := eth_tx_value
        gas_limit := gas_limit
        to_ := if (data.getD 136 (mkByte 0)).val = 0 then TxKind.call to_a
          else TxKind.create
        input := slice data 137 data.length }

/-- Modelled from the spec: the EIP-2718 deposit envelope is a one-byte
type tag (the deposit transaction type) followed by the RLP payload.
`OpTxType::Deposit as u8` lives in a module that is absent from src; the
tag value 0x7e is the one fixed by the deposit test vectors in deposits.rs. -/
def DEPOSIT_TX_TYPE : Byte := mkByte 0x7e

/-- `TxDeposit::eip2718_encode`: the type byte, then the RLP encoding. -/
def TxDeposit.eip2718_encode (tx : TxDeposit) : List Byte :=
  DEPOSIT_TX_TYPE :: tx.rlp_encode

/-- The partially filled deposit transaction built by `decode_deposit`
before version dispatch. -/
def depositBaseTx (block_hash : List Byte) (index : Nat)
    (from_ : List Byte) : TxDeposit :=
  { TxDeposit.default with
    from_ := from_
    is_system_transaction := false
    source_hash := userSourceHash block_hash index }

/-- The body of `decode_deposit` once the four topics are in hand. -/
def decode_deposit_checked (block_hash : List Byte) (index : Nat)
    (t0 t1 t2 t3 : List Byte) (data : List Byte) :
    Except DepositError (List Byte) :=
  if t0 ≠ DEPOSIT_EVENT_ABI_HASH then
    .error (.invalidSelector DEPOSIT_EVENT_ABI_HASH t0)
  else if data.length < 64 then
    .error (.incompleteOpaqueData data.length)
  else if data.length % 32 ≠ 0 then
    .error (.unalignedData data.length)
  else if (t1.drop 12).length ≠ 20 then .error (.fromDecode t1)
  else if (t2.drop 12).length ≠ 20 then .error (.toDecode t2)
  else if fromBe (slice data 24 32) ≠ 32 then
    .error (.invalidOpaqueDataOffset (slice data 24 32))
  else if fromBe (slice data 56 64) > data.length - 64 then
    .error (.opaqueDataOverflow (fromBe (slice data 56 64))
      (data.length - 64))
  else if 2 ^ 64 ≤ fromBe (slice data 56 64) + 32 then
    .error (.opaqueDataOverflow (fromBe (slice data 56 64))
      (data.length - 64))
  else if fromBe (slice data 56 64) + 32 ≤ data.length - 64 then
    .error (.paddedOpaqueDataOverflow (data.length - 64)
      (fromBe (slice data 56 64)))
  else
    Except.map TxDeposit.eip2718_encode
      (if t3 = DEPOSIT_EVENT_VERSION_0 then
        unmarshal_deposit_version0 (depositBaseTx block_hash index (t1.drop 12))
          (t2.drop 12) (slice data 64 (64 + fromBe (slice data 56 64)))
      else if t3 = DEPOSIT_EVENT_VERSION_1 then
        unmarshal_deposit_version1 (depositBaseTx block_hash index (t1.drop 12))
          (t2.drop 12) (slice data 64 (64 + fromBe (slice data 56 64)))
      else .error (.invalidVersion t3))

/-- `decode_deposit`: exactly four topics, the deposit event selector, at
least 64 bytes of 32-byte-aligned data, an ABI offset word of 32, an opaque
length fitting the data with less than a word of padding, then version
dispatch and EIP-2718 re-encoding. -/
def decode_deposit (block_hash : List Byte) (index : Nat) (log : Log) :
    Except DepositError (List Byte) :=
  match log.topics with
  | [t0, t1, t2, t3] =>
    decode_deposit_checked block_hash index t0 t1 t2 t3 log.data
  | ts => .error (.unexpectedTopicsLen ts.length)

theorem decode_deposit_four (block_hash : List Byte) (index : Nat)
    (addr t0 t1 t2 t3 data : List Byte) :
    decode_deposit block_hash index ⟨addr, [t0, t1, t2, t3], data⟩ =
      decode_deposit_checked block_hash index t0 t1 t2 t3 data := rfl

theorem decode_u128_field_ok (data : List Byte) (offset : Nat)
    (h : offset + 32 ≤ data.length) :
    decode_u128_field data offset =
      .ok (if fromBe (slice data (offset + 16) (offset + 32)) = 0 then none
           else some (fromBe (slice data (offset + 16) (offset + 32)))) := by
  unfold decode_u128_field
  rw [if_pos]
  rw [slice_length data _ _ (by omega) (by omega)]
  omega

theorem decode_u8_field_ok (data : List Byte) (offset : Nat)
    (h : offset + 8 ≤ data.length) :
    decode_u8_field data offset =
      .ok (fromBe (slice data offset (offset + 8))) := by
  unfold decode_u8_field
  rw [if_pos]
  rw [slice_length data _ _ (by omega) (by omega)]
  omega

/-- Evaluation of `unmarshal_deposit_version1` on opaque data of at least
its minimum length 137. -/
theorem unmarshal_deposit_version1_ok (tx : TxDeposit) (to_a d : List Byte)
    (h : 137 ≤ d.length) :
    unmarshal_deposit_version1 tx to_a d =
      .ok { tx with
        mint := if fromBe (slice d 16 32) = 0 then none
          else some (fromBe (slice d 16 32))
        value := fromBe (slice d 32 64)
        eth_value := if fromBe (slice d 80 96) = 0 then none
          else some (fromBe (slice d 80 96))
        eth_tx_value := if fromBe (slice d 112 128) = 0 then none
          else some (fromBe (slice d 112 128))
        gas_limit := fromBe (slice d 128 136)
        to_ := if (d.getD 136 (mkByte 0)).val = 0 then TxKind.call to_a
          else TxKind.create
        input := slice d 137 d.length } := by
  unfold unmarshal_deposit_version1
  rw [if_neg (by omega), decode_u128_field_ok d 0 (by omega),
    decode_u128_field_ok d 64 (by omega), decode_u128_field_ok d 96 (by omega),
    decode_u8_field_ok d 128 (by omega)]

/-! ### C8 -/

/-- C8 counterexample data: a well-shaped version1 log whose declared
opaque length is exactly 136 (224 bytes of data, offset word 32, padding
under one word), one byte short of version1's 137-byte minimum. -/
def c8BadData : List Byte :=
  (List.replicate 31 (mkByte 0) ++ [mkByte 32]) ++
  (List.replicate 31 (mkByte 0) ++ [mkByte 136]) ++
  List.replicate 160 (mkByte 0)

/-- The C8 counterexample log. -/
def c8BadLog : Log :=
  ⟨List.replicate 20 (mkByte 0),
   [DEPOSIT_EVENT_ABI_HASH, List.replicate 32 (mkByte 0),
    List.replicate 32 (mkByte 0), DEPOSIT_EVENT_VERSION_1], c8BadData⟩

set_option maxRecDepth 100000 in
/-- C8 counterexample: a correctly shaped version1 log whose opaque data
has length exactly 136 bytes does not decode; `unmarshal_deposit_version1`
requires at least 32+32+32+32+8+1 = 137 bytes, so "length at least 136" is
off by one. -/
theorem c8_version1_counterexample :
    decode_deposit (List.replicate 32 (mkByte 0)) 0 c8BadLog =
      .error (.unexpectedOpaqueDataLen 136) := by decide

/-- C8 (amended): for every deposit event log whose topics are the deposit
selector, two 32-byte topics and the version1 constant, whose data is
32-byte aligned with a real usize length, offset word 32 and a declared
opaque length that fits the data with less than a word of padding, if the
opaque length is at least 137 then `decode_deposit` succeeds and the
decoded deposit's `eth_tx_value` is present exactly when the 16-byte slot
at opaque bytes 112..128 is non-zero (an all-zero slot is normalized to
absent); and any opaque data shorter than 137 bytes — in particular
version0's 105-byte minimum, and 136 bytes — fails
`unmarshal_deposit_version1` with `UnexpectedOpaqueDataLen`. -/
theorem c8_version1_min_len (block_hash : List Byte) (index : Nat)
    (log : Log) (t1 t2 : List Byte)
    (htop : log.topics = [DEPOSIT_EVENT_ABI_HASH, t1, t2,
      DEPOSIT_EVENT_VERSION_1])
    (ht1 : t1.length = 32) (ht2 : t2.length = 32)
    (hd64 : 64 ≤ log.data.length) (hal : log.data.length % 32 = 0)
    (hdsz : log.data.length < 2 ^ 64)
    (hoff : fromBe (slice log.data 24 32) = 32)
    (hlen1 : fromBe (slice log.data 56 64) ≤ log.data.length - 64)
    (hlen2 : log.data.length - 64 < fromBe (slice log.data 56 64) + 32)
    (hmin : 137 ≤ fromBe (slice log.data 56 64)) :
    (∃ tx : TxDeposit, decode_deposit block_hash index log =
        .ok (DEPOSIT_TX_TYPE :: tx.rlp_encode) ∧
      tx.eth_tx_value =
        (if fromBe (slice (slice log.data 64
            (64 + fromBe (slice log.data 56 64))) 112 128) = 0 then none
         else some (fromBe (slice (slice log.data 64
            (64 + fromBe (slice log.data 56 64))) 112 128))) ∧
      (tx.eth_tx_value.isSome ↔
        fromBe (slice (slice log.data 64
          (64 + fromBe (slice log.data 56 64))) 112 128) ≠ 0)) ∧
    (∀ tx0 to_a d, d.length < 137 →
      unmarshal_deposit_version1 tx0 to_a d =
        .error (.unexpectedOpaqueDataLen d.length)) := by
  constructor
  · have h64 : (2 : Nat) ^ 64 = 18446744073709551616 := by norm_num
    obtain ⟨addr, tps, d⟩ := log
    simp only at htop hd64 hal hdsz hoff hlen1 hlen2 hmin ⊢
    subst htop
    have hOlen : (slice d 64 (64 + fromBe (slice d 56 64))).length =
        fromBe (slice d 56 64) := by
      rw [slice_length d _ _ (by omega) (by omega)]
      omega
    refine ⟨{ depositBaseTx block_hash index (t1.drop 12) with
      mint := if fromBe (slice (slice d 64 (64 + fromBe (slice d 56 64)))
          16 32) = 0 then none
        else some (fromBe (slice (slice d 64 (64 + fromBe (slice d 56 64)))
          16 32))
      value := fromBe (slice (slice d 64 (64 + fromBe (slice d 56 64))) 32 64)
      eth_value := if fromBe (slice (slice d 64
          (64 + fromBe (slice d 56 64))) 80 96) = 0 then none
        else some (fromBe (slice (slice d 64 (64 + fromBe (slice d 56 64)))
          80 96))
      eth_tx_value := if fromBe (slice (slice d 64
          (64 + fromBe (slice d 56 64))) 112 128) = 0 then none
        else some (fromBe (slice (slice d 64 (64 + fromBe (slice d 56 64)))
          112 128))
      gas_limit := fromBe (slice (slice d 64 (64 + fromBe (slice d 56 64)))
        128 136)
      to_ := if ((slice d 64 (64 + fromBe (slice d 56 64))).getD 136
          (mkByte 0)).val = 0 then TxKind.call (t2.drop 12)
        else TxKind.create
      input := slice (slice d 64 (64 + fromBe (slice d 56 64))) 137
        (slice d 64 (64 + fromBe (slice d 56 64))).length }, ?_, ?_, ?_⟩
    · rw [decode_deposit_four, decode_deposit_checked]
      rw [if_neg (by simp)]
      rw [if_neg (by omega)]
      rw [if_neg (by omega)]
      rw [if_neg (by simp [List.length_drop, ht1])]
      rw [if_neg (by simp [List.length_drop, ht2])]
      rw [if_neg (by simp [hoff])]
      rw [if_neg (by omega)]
      rw [if_neg (by rw [h64] at hdsz ⊢; omega)]
      rw [if_neg (by omega)]
      rw [if_neg (by decide), if_pos rfl]
      rw [unmarshal_deposit_version1_ok _ _ _ (by rw [hOlen]; exact hmin)]
      rfl
    · rfl
    · by_cases hz : fromBe (slice (slice d 64
          (64 + fromBe (slice d 56 64))) 112 128) = 0 <;>
        simp [hz]
  · intro tx0 to_a d hd
    unfold unmarshal_deposit_version1
    rw [if_pos (by omega)]

/-- C8 witness data: a well-shaped version1 log with declared opaque length
137 (224 bytes of data) whose eth-tx-value slot holds 7. -/
def c8GoodData : List Byte :=
  (List.replicate 31 (mkByte 0) ++ [mkByte 32]) ++
  (List.replicate 31 (mkByte 0) ++ [mkByte 137]) ++
  (List.replicate 127 (mkByte 0) ++ [mkByte 7]) ++
  List.replicate 32 (mkByte 0)

/-- The C8 witness log. -/
def c8GoodLog : Log :=
  ⟨List.replicate 20 (mkByte 0),
   [DEPOSIT_EVENT_ABI_HASH, List.replicate 32 (mkByte 0),
    List.replicate 32 (mkByte 0), DEPOSIT_EVENT_VERSION_1], c8GoodData⟩

set_option maxRecDepth 40000 in
/-- Witness for C8: the version1 log with opaque length 137 and a non-zero
eth-tx-value slot. -/
theorem c8_version1_min_len_witness :
    ∃ tx : TxDeposit, decode_deposit (List.replicate 32 (mkByte 0)) 0 c8GoodLog =
        .ok (DEPOSIT_TX_TYPE :: tx.rlp_encode) ∧
      tx.eth_tx_value =
        (if fromBe (slice (slice c8GoodLog.data 64
            (64 + fromBe (slice c8GoodLog.data 56 64))) 112 128) = 0 then none
         else some (fromBe (slice (slice c8GoodLog.data 64
            (64 + fromBe (slice c8GoodLog.data 56 64))) 112 128))) ∧
      (tx.eth_tx_value.isSome ↔
        fromBe (slice (slice c8GoodLog.data 64
          (64 + fromBe (slice c8GoodLog.data 56 64))) 112 128) ≠ 0) :=
  (c8_version1_min_len (List.replicate 32 (mkByte 0)) 0 c8GoodLog
    (List.replicate 32 (mkByte 0)) (List.replicate 32 (mkByte 0))
    rfl (by decide) (by decide) (by decide) (by decide) (by decide)
    (by decide) (by decide) (by decide) (by decide)).1

/-! ### C9 -/

/-- The C9 log data: 192 bytes, all zero except the ABI offset word (32)
and the declared opaque length word (128). -/
def c9Data : List Byte :=
  (List.replicate 31 (mkByte 0) ++ [mkByte 32]) ++
  (List.replicate 31 (mkByte 0) ++ [mkByte 128]) ++
  List.replicate 128 (mkByte 0)

/-- The C9 version0 deposit log (zero addresses and topics). -/
def c9Log : Log :=
  ⟨List.replicate 20 (mkByte 0),
   [DEPOSIT_EVENT_ABI_HASH, List.replicate 32 (mkByte 0),
    List.replicate 32 (mkByte 0), List.replicate 32 (mkByte 0)], c9Data⟩

/-- The user-deposit source hash of the zero block hash at log index 0. -/
def c9SourceHash : List Byte :=
  [0xed, 0x42, 0x8e, 0x1c, 0x45, 0xe1, 0xd9, 0x56, 0x1b, 0x62, 0x83, 0x4e,
   0x1a, 0x2d, 0x30, 0x15, 0xa0, 0xca, 0xae, 0x3b, 0xfd, 0xc1, 0x6b, 0x4d,
   0xa0, 0x59, 0xac, 0x88, 0x5b, 0x01, 0xa1, 0x45].map mkByte

/-- The deposit transaction decoded from the C9 log. -/
def c9Tx : TxDeposit :=
  ⟨c9SourceHash, List.replicate 20 (mkByte 0),
    .call (List.replicate 20 (mkByte 0)), none, 0, 0, false, none,
    List.replicate 23 (mkByte 0), none⟩

/-- The EIP-2718 re-encoding returned for the C9 log (107 bytes). -/
def c9Output : List Byte :=
  [mkByte 0x7e, mkByte 0xf8, mkByte 0x68, mkByte 0xa0] ++ c9SourceHash ++
  (mkByte 0x94 :: List.replicate 20 (mkByte 0)) ++
  (mkByte 0x94 :: List.replicate 20 (mkByte 0)) ++
  [mkByte 0x80, mkByte 0x80, mkByte 0x80, mkByte 0x80, mkByte 0x80,
   mkByte 0x97] ++
  List.replicate 23 (mkByte 0)

set_option maxRecDepth 400000 in
/-- C9 (amended): the version0 deposit log with 192 bytes of data, ABI
offset word 32, declared opaque length 128 and an all-zero payload decodes
successfully; the deposit has mint, eth value and eth tx value absent,
value 0, gas limit 0, `to` equal to a call of the zero address (the
isCreation byte is 0, so the call branch is taken, not the creation
marker), and an input of the 23 zero opaque bytes past offset 105; the
re-encoded output is the fixed 107-byte string `c9Output`. -/
theorem c9_empty_deposit_decode :
    decode_deposit (List.replicate 32 (mkByte 0)) 0 c9Log = .ok c9Output ∧
    unmarshal_deposit_version0
      (depositBaseTx (List.replicate 32 (mkByte 0)) 0
        (List.replicate 20 (mkByte 0)))
      (List.replicate 20 (mkByte 0)) (slice c9Data 64 192) = .ok c9Tx ∧
    c9Tx.mint = none ∧ c9Tx.value = 0 ∧ c9Tx.eth_value = none ∧
    c9Tx.eth_tx_value = none ∧ c9Tx.gas_limit = 0 ∧
    c9Tx.to_ = .call (List.replicate 20 (mkByte 0)) ∧
    c9Tx.input = List.replicate 23 (mkByte 0) ∧
    c9Output = DEPOSIT_TX_TYPE :: c9Tx.rlp_encode := by decide

set_option maxRecDepth 400000 in
/-- C9 counterexample: the deposit decoded from the C9 log is a call, not
the contract-creation marker, and its input is not empty, so the claimed
`to = Create` and `input = []` (and the byte-for-byte output they imply)
do not hold of `decode_deposit`. -/
theorem c9_empty_deposit_counterexample :
    unmarshal_deposit_version0
      (depositBaseTx (List.replicate 32 (mkByte 0)) 0
        (List.replicate 20 (mkByte 0)))
      (List.replicate 20 (mkByte 0)) (slice c9Data 64 192) = .ok c9Tx ∧
    c9Tx.to_ ≠ .create ∧ c9Tx.input ≠ [] ∧
    decode_deposit (List.replicate 32 (mkByte 0)) 0 c9Log ≠
      .ok (DEPOSIT_TX_TYPE ::
        TxDeposit.rlp_encode { c9Tx with to_ := .create, input := [] }) := by
  decide

/-! ## Batch decoding (crates/protocol/src/batch/core.rs)

Only `core.rs` and `mod.rs` of the batch module are under src; `SingleBatch`
and `BatchDecodingError` live in the module's absent files. -/

/-- `BatchDecodingError`, restricted to the two constructors `core.rs`
uses: the empty-buffer error and the wrapped alloy RLP error. -/
inductive BatchDecodingError where
  | emptyBuffer
  | alloyRlpError (e : RlpError)
deriving DecidableEq, Repr

/-- `Batch`: a tagged union with the single variant, parametric over the
single-batch payload type. -/
inductive Batch (β : Type) where
  | single (inner : β)
deriving DecidableEq, Repr

/-- Modelled from the spec: `SingleBatch::decode` is not under src (the
batch module only re-exports it), and `Batch::decode` delegates the whole
remainder to it, so the embedding is parametric over an arbitrary
front-consuming decoder `dec`.  `Batch::decode` itself: fail on empty
input, advance one byte, decode a single batch from the rest and wrap it;
the final buffer state of the mutable slice is returned alongside. -/
def Batch.decode {β : Type}
    (dec : List Byte → Except RlpError (β × List Byte))
    (_cfg : RollupConfig) (r : List Byte) :
    Except BatchDecodingError (Batch β × List Byte) :=
  match r with
  | [] => .error .emptyBuffer
  | _ :: rest =>
    match dec rest with
    | .error e => .error (.alloyRlpError e)
    | .ok (sb, rest') => .ok (.single sb, rest')

/-- C10: `Batch::decode` never inspects the type-discriminant byte it
consumes: it fails with `EmptyBuffer` exactly on empty input, two non-empty
buffers that agree after their first byte decode to identical results for
every single-batch decoder and rollup config (so every discriminant value
is dispatched to the single-batch decoder), and a non-empty buffer never
produces the `EmptyBuffer` error, the only discriminant-related failure. -/
theorem c10_batch_discriminant_blind {β : Type}
    (dec : List Byte → Except RlpError (β × List Byte))
    (cfg : RollupConfig) :
    Batch.decode dec cfg [] = .error .emptyBuffer ∧
    (∀ (b1 b2 : Byte) (tail : List Byte),
      Batch.decode dec cfg (b1 :: tail) = Batch.decode dec cfg (b2 :: tail)) ∧
    (∀ (b : Byte) (tail : List Byte),
      Batch.decode dec cfg (b :: tail) ≠ .error .emptyBuffer) := by
  refine ⟨rfl, fun b1 b2 tail => rfl, fun b tail => ?_⟩
  have h0 : Batch.decode dec cfg (b :: tail) =
      (match dec tail with
       | .error e => .error (.alloyRlpError e)
       | .ok (sb, rest') => .ok (.single sb, rest')) := rfl
  rw [h0]
  cases hd : dec tail with
  | error e => simp
  | ok p => obtain ⟨sb, rest'⟩ := p; simp

/-- Witness for C10 at the `u64` RLP decoder and an arbitrary config:
opposite discriminant bytes over the same tail agree. -/
theorem c10_batch_discriminant_blind_witness :
    Batch.decode (decodeUint 8) ⟨none⟩ [] = .error .emptyBuffer ∧
    Batch.decode (decodeUint 8) ⟨none⟩ [mkByte 0, mkByte 0x05] =
      Batch.decode (decodeUint 8) ⟨none⟩ [mkByte 0xff, mkByte 0x05] ∧
    Batch.decode (decodeUint 8) ⟨none⟩ [mkByte 7] ≠ .error .emptyBuffer :=
  ⟨(c10_batch_discriminant_blind (decodeUint 8) ⟨none⟩).1,
   (c10_batch_discriminant_blind (decodeUint 8) ⟨none⟩).2.1 (mkByte 0)
     (mkByte 0xff) [mkByte 0x05],
   (c10_batch_discriminant_blind (decodeUint 8) ⟨none⟩).2.2 (mkByte 7) []⟩

end OpAlloy
